import Mathlib

/-!
# go-tkt: relational-result mapping, transactions and sequences

A shallow embedding of `lib/persistence.go` and `lib/sequence.go`.

* Reflection (`reflect.Type`, `reflect.StructField`, `reflect.Value`) is embedded as plain
  data: a struct type is the list of its field declarations, a struct value the list of its
  field values.
* A Go panic is the `error` side of `Except`; code that runs deferred functions is embedded
  with an explicit trace of the calls made on the connection and the transaction.
* What the database answers (result sets, errors of `Begin`, `Commit`, ...) is an input of
  the embedded function.
-/

set_option autoImplicit false

namespace Tkt

/-! ## Reflection data -/

/-- A Go struct tag, as the key/value pairs written in it, in order. -/
structure StructTag where
  pairs : List (String × String)
  deriving DecidableEq, Repr

/-- `reflect.StructTag.Lookup`: the value of the first pair with the given key. -/
def StructTag.Lookup (tag : StructTag) (key : String) : Option String :=
  tag.pairs.lookup key

/-- A field as declared in a struct type: name, package path (empty exactly for an
exported field, as in `reflect.StructField.PkgPath`), type and tag. -/
structure FieldDecl (τ : Type) where
  Name : String
  PkgPath : String
  Typ : τ
  Tag : StructTag
  deriving DecidableEq, Repr

/-- The embedding of `reflect.StructField`: a declaration with its index in the struct. -/
structure StructField (τ : Type) where
  Name : String
  PkgPath : String
  Typ : τ
  Tag : StructTag
  Index : Nat
  deriving DecidableEq, Repr

/-- The embedding of a `reflect.Type` of kind struct. -/
structure StructType (τ : Type) where
  decls : List (FieldDecl τ)
  deriving DecidableEq, Repr

variable {τ ν δ : Type}

/-- `reflect.Type.NumField`. -/
def StructType.NumField (t : StructType τ) : Nat := t.decls.length

/-- The field declared at position `i`, as `reflect.Type.Field(i)` describes it. -/
def FieldDecl.asField (d : FieldDecl τ) (i : Nat) : StructField τ :=
  { Name := d.Name, PkgPath := d.PkgPath, Typ := d.Typ, Tag := d.Tag, Index := i }

/-- Fields `Field(start)`, `Field(start+1)`, ... of a declaration list. -/
def fieldsFrom : Nat → List (FieldDecl τ) → List (StructField τ)
  | _, [] => []
  | start, d :: ds => d.asField start :: fieldsFrom (start + 1) ds

/-- The sequence `Field(0), ..., Field(NumField-1)` that the loops over a type visit. -/
def StructType.Fields (t : StructType τ) : List (StructField τ) := fieldsFrom 0 t.decls

/-- `reflect.Type.Field(i)`; `none` stands for the out-of-range panic. -/
def StructType.Field (t : StructType τ) (i : Nat) : Option (StructField τ) :=
  t.Fields[i]?

/-- Whether the field carries a `transient` tag (`f.Tag.Lookup("transient")` is ok). -/
def StructField.isTransient (f : StructField τ) : Bool :=
  (f.Tag.Lookup "transient").isSome

/-! ## Column resolution by name (`buildFieldListByNames`) -/

/-- ASCII lower-casing; it agrees with Go's `strings.ToLower` on ASCII strings. -/
def asciiLower (s : String) : String := String.mk (s.data.map Char.toLower)

/-- The key `k` under which the first loop of `buildFieldListByNames` stores a field:
`k` stays the empty string for a transient field, else it is the lower-cased `column`
tag, else the lower-cased field name. -/
def fieldKey (lower : String → String) (f : StructField τ) : String :=
  match f.Tag.Lookup "transient" with
  | some _ => ""
  | none =>
    match f.Tag.Lookup "column" with
    | some t => lower t
    | none => lower f.Name

/-- The `fieldMap` built by the first loop of `buildFieldListByNames`.  The Go map is an
association list read from the front: `fieldMap[k] = f` puts the pair in front, so a later
assignment to a key hides the earlier ones. -/
def buildFieldMap (lower : String → String) (objectType : StructType τ) :
    List (String × StructField τ) :=
  objectType.Fields.foldl (fun fieldMap f => (fieldKey lower f, f) :: fieldMap) []

/-- The second loop of `buildFieldListByNames`: one field per column, in column order; the
first column whose lower-cased name is not in the map panics. -/
def resolveColumns (lower : String → String) (fieldMap : List (String × StructField τ)) :
    List String → Except String (List (StructField τ))
  | [] => .ok []
  | col :: rest =>
    match fieldMap.lookup (lower col) with
    | none => .error ("Struct field not found for column " ++ lower col)
    | some f =>
      match resolveColumns lower fieldMap rest with
      | .error e => .error e
      | .ok fields => .ok (f :: fields)

/-- `buildFieldListByNames(objectType, cols)`; `lower` is `strings.ToLower`. -/
def buildFieldListByNames (lower : String → String) (objectType : StructType τ)
    (cols : List String) : Except String (List (StructField τ)) :=
  resolveColumns lower (buildFieldMap lower objectType) cols

/-! ## Struct values, scanning and field assignment -/

/-- What `reflect` and `database/sql` contribute for field types `τ`, Go values `ν` and
driver values `δ`: the zero value of a type (`reflect.New(t).Elem()`), the conversion done by
`Rows.Scan` into a destination of a type, and assignability between two distinct types. -/
structure Runtime (τ ν δ : Type) where
  zero : τ → ν
  convertAssign : τ → δ → Except String ν
  assignable : τ → τ → Bool

/-- A struct value: each declared field with its current value. -/
structure Instance (τ ν : Type) where
  fields : List (FieldDecl τ × ν)

/-- The struct type of a value (`reflect.TypeOf`). -/
def Instance.type (o : Instance τ ν) : StructType τ := ⟨o.fields.map Prod.fst⟩

/-- The field values of a struct value, in declaration order. -/
def Instance.values (o : Instance τ ν) : List ν := o.fields.map Prod.snd

/-- `reflect.New(t).Elem()`: every field at the zero value of its type. -/
def newInstance (rt : Runtime τ ν δ) (t : StructType τ) : Instance τ ν :=
  ⟨t.decls.map (fun d => (d, rt.zero d.Typ))⟩

/-- `object.FieldByIndex(f.Index).Set(v)` for a value `v` of type `f.Typ`: panics when the
index is out of range, when the addressed field is unexported, or when `f.Typ` is not
assignable to the addressed field's type. -/
def Instance.Set [DecidableEq τ] (rt : Runtime τ ν δ) (object : Instance τ ν)
    (f : StructField τ) (v : ν) : Except String (Instance τ ν) :=
  match object.fields[f.Index]? with
  | none => .error "reflect: Field index out of range"
  | some (d, _) =>
    if d.PkgPath ≠ "" then
      .error "reflect: reflect.Value.Set using value obtained using unexported field"
    else if f.Typ = d.Typ ∨ rt.assignable f.Typ d.Typ = true then
      .ok ⟨object.fields.set f.Index (d, v)⟩
    else
      .error "reflect.Set: value is not assignable to the field type"

/-- A result set: the column names and the rows still to be read, as driver values. -/
structure Rows (δ : Type) where
  columns : List String
  rows : List (List δ)

/-- Conversion of the cells of a row into destinations of the given types, left to right. -/
def convertCells (rt : Runtime τ ν δ) : List τ → List δ → Except String (List ν)
  | ty :: tys, c :: cs =>
    match rt.convertAssign ty c with
    | .error e => .error e
    | .ok v =>
      match convertCells rt tys cs with
      | .error e => .error e
      | .ok vs => .ok (v :: vs)
  | _, _ => .ok []

/-- `r.Scan(buffer...)` for a buffer whose slots have the given types: the destination
count must equal the column count of the row, then every cell is converted. -/
def Scan (rt : Runtime τ ν δ) (bufferTypes : List τ) (row : List δ) : Except String (List ν) :=
  if bufferTypes.length ≠ row.length then
    .error "sql: expected destination arguments in Scan"
  else convertCells rt bufferTypes row

/-! ## Single-shape mapping (`QueryStructNStmt`) -/

/-- The inner loop of `QueryStructNStmt`: slot `i` of the buffer is set into field
`fields[i]` of the object, for `i` over the columns. -/
def copyBuffer [DecidableEq τ] (rt : Runtime τ ν δ) :
    Instance τ ν → List (StructField τ) → List ν → Except String (Instance τ ν)
  | object, f :: fs, v :: vs =>
    match object.Set rt f v with
    | .error e => .error e
    | .ok object1 => copyBuffer rt object1 fs vs
  | object, _, _ => .ok object

/-- The row loop of `QueryStructNStmt`: scan, fresh object, copy, append. -/
def mapRows [DecidableEq τ] (rt : Runtime τ ν δ) (objectType : StructType τ)
    (fields : List (StructField τ)) : List (List δ) → Except String (List (Instance τ ν))
  | [] => .ok []
  | row :: rest =>
    match Scan rt (fields.map (fun f => f.Typ)) row with
    | .error e => .error e
    | .ok buffer =>
      match copyBuffer rt (newInstance rt objectType) fields buffer with
      | .error e => .error e
      | .ok object =>
        match mapRows rt objectType fields rest with
        | .error e => .error e
        | .ok arr => .ok (object :: arr)

/-- `QueryStructNStmt(stmt, template, queryParams...)`.  `query` is what
`stmt.Query(queryParams...)` answers, `objectType` is `reflect.TypeOf(template)`. -/
def QueryStructNStmt [DecidableEq τ] (rt : Runtime τ ν δ) (lower : String → String)
    (query : Except String (Rows δ)) (objectType : StructType τ) :
    Except String (List (Instance τ ν)) :=
  match query with
  | .error e => .error e
  | .ok r =>
    if r.columns.length > objectType.NumField then
      .error "Result set column count greater than struct field count"
    else
      match buildFieldListByNames lower objectType r.columns with
      | .error e => .error e
      | .ok fields => mapRows rt objectType fields r.rows

/-! ## Multi-shape mapping (`QueryStructs`) -/

/-- The embedding of `FieldInfo`.  `HolderType` is the address of the variable `t` of the
outer loop of `buildFieldInfoList`; that variable is fresh in each iteration, so the
address is identified with the iteration number. -/
structure FieldInfo (τ : Type) where
  HolderType : Nat
  StructField : StructField τ
  deriving DecidableEq, Repr

/-- The loops of `buildFieldInfoList`, the outer one starting at iteration `i`. -/
def fieldInfosFrom : Nat → List (StructType τ) → List (FieldInfo τ)
  | _, [] => []
  | i, t :: ts => t.Fields.map (fun f => ⟨i, f⟩) ++ fieldInfosFrom (i + 1) ts

/-- `buildFieldInfoList(types)`. -/
def buildFieldInfoList (types : List (StructType τ)) : List (FieldInfo τ) :=
  fieldInfosFrom 0 types

/-- The loop over `fieldInfoList` in the row loop of `QueryStructs`, with its variables
`ii` and `t` (`none` is the nil pointer) and the instances built so far. -/
def assignRow [DecidableEq τ] (rt : Runtime τ ν δ) :
    Int → Option Nat → List (Instance τ ν) → List (FieldInfo τ) → List ν →
    Except String (List (Instance τ ν))
  | ii, t, instancesElemns, fi :: fis, v :: vs =>
    let ii1 := if t ≠ some fi.HolderType then ii + 1 else ii
    let t1 := if t ≠ some fi.HolderType then some fi.HolderType else t
    if fi.StructField.isTransient then
      assignRow rt ii1 t1 instancesElemns fis vs
    else
      match (if 0 ≤ ii1 then instancesElemns[ii1.toNat]? else none) with
      | none => .error "runtime error: index out of range"
      | some object =>
        match object.Set rt fi.StructField v with
        | .error e => .error e
        | .ok object1 => assignRow rt ii1 t1 (instancesElemns.set ii1.toNat object1) fis vs
  | _, _, instancesElemns, _, _ => .ok instancesElemns

/-- The row loop of `QueryStructs`. -/
def mapRowsMulti [DecidableEq τ] (rt : Runtime τ ν δ) (objectTypes : List (StructType τ))
    (fieldInfoList : List (FieldInfo τ)) :
    List (List δ) → Except String (List (List (Instance τ ν)))
  | [] => .ok []
  | row :: rest =>
    match Scan rt (fieldInfoList.map (fun fi => fi.StructField.Typ)) row with
    | .error e => .error e
    | .ok buffer =>
      match assignRow rt (-1) none (objectTypes.map (newInstance rt)) fieldInfoList buffer with
      | .error e => .error e
      | .ok instances =>
        match mapRowsMulti rt objectTypes fieldInfoList rest with
        | .error e => .error e
        | .ok arr => .ok (instances :: arr)

/-- `QueryStructs(tx, templates, sql, queryParams...)`.  `query` is what `tx.Query`
answers, `objectTypes` is `buildObjectTypes(templates)`. -/
def QueryStructs [DecidableEq τ] (rt : Runtime τ ν δ) (query : Except String (Rows δ))
    (objectTypes : List (StructType τ)) : Except String (List (List (Instance τ ν))) :=
  match query with
  | .error e => .error e
  | .ok r =>
    let fieldInfoList := buildFieldInfoList objectTypes
    if r.columns.length ≠ fieldInfoList.length then
      .error "Result set column count differs from structs field count"
    else mapRowsMulti rt objectTypes fieldInfoList r.rows

/-! ## Parameter binding (`ExecStructStmtOff`) -/

/-- What a call of `ExecStructStmtOff` did: the parameter lists passed to `stmt.Exec`
(none or one) and whether the call returned or panicked. -/
structure ExecRun (ν : Type) where
  execCalls : List (List ν)
  outcome : Except String Unit

/-- The second loop of `ExecStructStmtOff`: `value.Field(i + offset).Interface()` for the
fields from the offset on; `Interface` panics on an unexported field. -/
def fieldInterfaces : List (FieldDecl τ × ν) → Except String (List ν)
  | [] => .ok []
  | (d, v) :: rest =>
    if d.PkgPath ≠ "" then
      .error "reflect.Value.Interface: cannot return value obtained from unexported field or method"
    else
      match fieldInterfaces rest with
      | .error e => .error e
      | .ok vs => .ok (v :: vs)

/-- `ExecStructStmtOff(stmt, data, offset)`; `exec` is what `stmt.Exec` answers for a
parameter list (`some err` for an error). -/
def ExecStructStmtOff (exec : List ν → Option String) (data : Instance τ ν) (offset : Int) :
    ExecRun ν :=
  if data.type.NumField - offset < 0 then
    ⟨[], .error "runtime error: makeslice: len out of range"⟩
  else if offset < 0 then
    ⟨[], .error "reflect: Field index out of bounds"⟩
  else
    match fieldInterfaces (data.fields.drop offset.toNat) with
    | .error e => ⟨[], .error e⟩
    | .ok buffer =>
      match exec buffer with
      | some err => ⟨[buffer], .error err⟩
      | none => ⟨[buffer], .ok ()⟩

/-- `ExecStructStmt(stmt, data)`. -/
def ExecStructStmt (exec : List ν → Option String) (data : Instance τ ν) : ExecRun ν :=
  ExecStructStmtOff exec data 0

/-! ## Transactions (`ExecuteTransactional`, `ExecuteTransactionalFunc`) -/

/-- `DatabaseConfig`; a nil pointer is `none`. -/
structure DatabaseConfig where
  DatabaseDriver : String
  DatasourceName : String
  MaxIdleConns : Option Int
  MaxOpenConns : Option Int
  MaxConnLifetime : Option Int
  deriving DecidableEq, Repr

/-- Values of type `interface{}` passed to and returned by a callback. -/
inductive GoValue
  | null
  | bool (b : Bool)
  | int (n : Int)
  | str (s : String)
  | slice (xs : List GoValue)

/-- The value of a panic in flight, as `recover()` reports it.  `nil` is the value of a
`panic(nil)` where the runtime hands the nil on to `recover()` (Go before 1.21, or
`GODEBUG=panicnil=1`); any other value is identified with the text `fmt.Sprint` prints
for it (from Go 1.21 on a `panic(nil)` is in flight as a non-nil runtime error). -/
inductive PanicValue
  | nil
  | value (text : String)
  deriving DecidableEq, Repr

/-- What the database and the driver answer.  Connections and transactions are handles. -/
structure SqlEnv where
  sqlOpen : String → String → Except String Nat
  begin : Nat → Except String Nat
  commit : Nat → Option String
  rollback : Nat → Option String
  close : Nat → Option String
  queryMaxId : Nat → String → Except String (Option Int)

/-- The calls observed during a run, oldest first.  `commit`, `rollback` and `close` carry
the error the call returned. -/
inductive Event
  | sqlOpen (driver dataSource : String)
  | setMaxIdleConns (db : Nat) (n : Int)
  | setMaxOpenConns (db : Nat) (n : Int)
  | setConnMaxLifetime (db : Nat) (seconds : Int)
  | begin (db : Nat)
  | setDb (db : Nat)
  | setTx (tx : Nat)
  | execute
  | callback (db tx : Nat) (args : List GoValue)
  | commit (tx : Nat) (err : Option String)
  | rollback (tx : Nat) (err : Option String)
  | close (db : Nat) (err : Option String)
  | logPrint (message : String)
  | query (tx : Nat) (sql : String)
  | rowsClose

/-- A run of Go code: the calls it made and how it ended, with a result or panicking. -/
structure Run (α : Type) where
  trace : List Event
  outcome : Except PanicValue α

/-- Sequencing: the second part runs only when the first returned. -/
def Run.andThen {α β : Type} (r : Run α) (k : α → Run β) : Run β :=
  match r.outcome with
  | .error p => ⟨r.trace, .error p⟩
  | .ok a => ⟨r.trace ++ (k a).trace, (k a).outcome⟩

/-- A call recorded as `e` that panics with `p` when `p` is given and returns otherwise. -/
def Run.call (e : Event) (p : Option PanicValue) : Run Unit :=
  match p with
  | some r => ⟨[e], .error r⟩
  | none => ⟨[e], .ok ()⟩

/-- The panic in flight when a body has ended (`none`: normal return). -/
def Run.panicking {α : Type} (r : Run α) : Option PanicValue :=
  match r.outcome with
  | .error p => some p
  | .ok _ => none

/-- A function body followed by one deferred call.  The deferred call is given the panic
in flight and answers the calls it makes and the panic in flight after it; when it stops
the panic the function returns `zero`. -/
def Run.deferred {α : Type} (zero : α) (d : Option PanicValue → List Event × Option PanicValue)
    (body : Run α) : Run α :=
  match body.outcome, d body.panicking with
  | .ok a, (evs, none) => ⟨body.trace ++ evs, .ok a⟩
  | .error _, (evs, none) => ⟨body.trace ++ evs, .ok zero⟩
  | _, (evs, some r) => ⟨body.trace ++ evs, .error r⟩

/-- `ResolvePanicMessage(r)`, that is `fmt.Sprint(r)`. -/
def ResolvePanicMessage (r : PanicValue) : String :=
  match r with
  | .nil => "<nil>"
  | .value text => text

/-- `closeDB(db)` as a deferred call: it closes and leaves the panic in flight alone. -/
def closeDB (env : SqlEnv) (db : Nat) (p : Option PanicValue) : List Event × Option PanicValue :=
  ([Event.close db (env.close db)], p)

/-- The result of `recover()` in a deferred call: the value of the panic in flight, and
nil when there is none.  After the call no panic is in flight any more. -/
def recover (p : Option PanicValue) : PanicValue :=
  match p with
  | some r => r
  | none => PanicValue.nil

/-- `rollbackOnPanic(tx)` as a deferred call: `r := recover()` stops the panic in flight;
when `r != nil` the message is logged, the transaction is rolled back and `panic(r)`
raises the same value again; when `r` is nil nothing is done and no panic is left. -/
def rollbackOnPanic (env : SqlEnv) (tx : Nat) (p : Option PanicValue) :
    List Event × Option PanicValue :=
  if recover p ≠ PanicValue.nil then
    ([Event.logPrint (ResolvePanicMessage (recover p)),
      Event.rollback tx (env.rollback tx)], some (recover p))
  else ([], none)

/-- The pool settings `OpenDB` applies, each only when configured. -/
def poolSettings (config : DatabaseConfig) (db : Nat) : List Event :=
  (match config.MaxIdleConns with
    | some n => [Event.setMaxIdleConns db n]
    | none => []) ++
  (match config.MaxOpenConns with
    | some n => [Event.setMaxOpenConns db n]
    | none => []) ++
  (match config.MaxConnLifetime with
    | some n => [Event.setConnMaxLifetime db n]
    | none => [])

/-- `OpenDB(config)`. -/
def OpenDB (env : SqlEnv) (config : DatabaseConfig) : Run Nat :=
  match env.sqlOpen config.DatabaseDriver config.DatasourceName with
  | .error err =>
    ⟨[Event.sqlOpen config.DatabaseDriver config.DatasourceName], .error (PanicValue.value err)⟩
  | .ok db =>
    ⟨Event.sqlOpen config.DatabaseDriver config.DatasourceName :: poolSettings config db, .ok db⟩

/-- `db.Begin()` followed by `panic(err)` on an error. -/
def beginTx (env : SqlEnv) (db : Nat) : Run Nat :=
  match env.begin db with
  | .error err => ⟨[Event.begin db], .error (PanicValue.value err)⟩
  | .ok tx => ⟨[Event.begin db], .ok tx⟩

/-- A caller-supplied `Transactional`: for each method, the value it panics with, if it
panics (`some PanicValue.nil` for a `panic(nil)`).  `Execute` sees the connection and the
transaction set before. -/
structure Transactional where
  SetDb : Nat → Option PanicValue
  SetTx : Nat → Option PanicValue
  Execute : Nat → Nat → Option PanicValue

/-- `ExecuteTransactional(config, transactional)`. -/
def ExecuteTransactional (env : SqlEnv) (config : DatabaseConfig)
    (transactional : Transactional) : Run Unit :=
  (OpenDB env config).andThen fun db =>
    Run.deferred () (closeDB env db)
      ((beginTx env db).andThen fun tx =>
        Run.deferred () (rollbackOnPanic env tx)
          ((Run.call (Event.setDb db) (transactional.SetDb db)).andThen fun _ =>
            (Run.call (Event.setTx tx) (transactional.SetTx tx)).andThen fun _ =>
              (Run.call Event.execute (transactional.Execute db tx)).andThen fun _ =>
                Run.call (Event.commit tx (env.commit tx)) none))

/-- A call of the callback with the given variadic argument list. -/
def callCallback (callback : Nat → Nat → List GoValue → Except PanicValue GoValue)
    (db tx : Nat) (args : List GoValue) : Run GoValue :=
  ⟨[Event.callback db tx args], callback db tx args⟩

/-- `ExecuteTransactionalFunc(config, callback, args...)`.  The call `callback(db, tx, args)`
passes the slice `args` as one argument, so the callback's variadic list is `[args]`. -/
def ExecuteTransactionalFunc (env : SqlEnv) (config : DatabaseConfig)
    (callback : Nat → Nat → List GoValue → Except PanicValue GoValue) (args : List GoValue) :
    Run GoValue :=
  (OpenDB env config).andThen fun db =>
    Run.deferred GoValue.null (closeDB env db)
      ((beginTx env db).andThen fun tx =>
        Run.deferred GoValue.null (rollbackOnPanic env tx)
          ((callCallback callback db tx [GoValue.slice args]).andThen fun r =>
            (Run.call (Event.commit tx (env.commit tx)) none).andThen fun _ =>
              ⟨[], .ok r⟩))

/-! ## Sequences (`Sequences.Next`) -/

/-- `int64` arithmetic: the representative of `x` in the range of `int64`. -/
def wrapInt64 (x : Int) : Int := (x + 2 ^ 63) % 2 ^ 64 - 2 ^ 63

/-- `Sequence`. -/
structure Sequence where
  Name : String
  LastId : Int
  deriving DecidableEq, Repr

/-- `Sequences`.  The Go map is an association list read from the front; the mutex is left
out, calls are embedded one after the other. -/
structure Sequences where
  Map : List (String × Sequence)
  Config : DatabaseConfig

/-- `NewSequences(config)`. -/
def NewSequences (config : DatabaseConfig) : Sequences := ⟨[], config⟩

/-- The body of `initSequence` after `defer db.Close()`: begin, query; then, after
`defer result.Close()`, the scanned `max(id)` when valid and `0` otherwise. -/
def initSequenceBody (env : SqlEnv) (sequence : Sequence) (db : Nat) : Run Sequence :=
  (beginTx env db).andThen fun tx =>
    match env.queryMaxId tx ("select max(id) from " ++ sequence.Name) with
    | .error err =>
      ⟨[Event.query tx ("select max(id) from " ++ sequence.Name)],
        .error (PanicValue.value err)⟩
    | .ok r =>
      ⟨[Event.query tx ("select max(id) from " ++ sequence.Name), Event.rowsClose],
        .ok { sequence with LastId := match r with
                                      | some id => id
                                      | none => 0 }⟩

/-- `o.initSequence(sequence)`; the result is the sequence with its seeded `LastId`. -/
def Sequences.initSequence (env : SqlEnv) (o : Sequences) (sequence : Sequence) :
    Run Sequence :=
  (OpenDB env o.Config).andThen fun db =>
    Run.deferred sequence (closeDB env db) (initSequenceBody env sequence db)

/-- The increment at the end of `Next`: the registry with the new `LastId` stored for the
name, and that value returned. -/
def bump (o : Sequences) (name : String) (seq : Sequence) : Sequences × Int :=
  ({ o with Map := (name, { seq with LastId := wrapInt64 (seq.LastId + 1) }) :: o.Map },
    wrapInt64 (seq.LastId + 1))

/-- `o.Next(name)`: the registry after the call and the run.  A panic of `initSequence`
leaves the registry as it was. -/
def Sequences.Next (env : SqlEnv) (o : Sequences) (name : String) : Sequences × Run Int :=
  match o.Map.lookup name with
  | some seq => ((bump o name seq).1, ⟨[], .ok (bump o name seq).2⟩)
  | none =>
    match (o.initSequence env ⟨name, 0⟩).outcome with
    | .error p => (o, ⟨(o.initSequence env ⟨name, 0⟩).trace, .error p⟩)
    | .ok seq => ((bump o name seq).1, ⟨(o.initSequence env ⟨name, 0⟩).trace, .ok (bump o name seq).2⟩)

/-- A sequence of `Next` calls, each with the database as it is at the time of the call:
the name asked for and the run of each call, in call order. -/
def runNexts : Sequences → List (String × SqlEnv) → List (String × Run Int)
  | _, [] => []
  | o, (name, env) :: rest =>
    (name, (o.Next env name).2) :: runNexts (o.Next env name).1 rest

/-- The outcomes of the calls made for one name, in call order. -/
def outcomesFor (name : String) (runs : List (String × Run Int)) : List (Except PanicValue Int) :=
  (runs.filter (fun r => r.1 == name)).map (fun r => r.2.outcome)

/-! ## Example data -/

/-- Field types used in the examples. -/
inductive Kind
  | int
  | string
  | bool
  deriving DecidableEq, Repr

/-- An exported field without tag. -/
def plainField (name : String) (k : Kind) : FieldDecl Kind :=
  { Name := name, PkgPath := "", Typ := k, Tag := ⟨[]⟩ }

/-- An exported field with a `column` override. -/
def columnField (name : String) (k : Kind) (column : String) : FieldDecl Kind :=
  { Name := name, PkgPath := "", Typ := k, Tag := ⟨[("column", column)]⟩ }

/-- An exported field tagged `transient`. -/
def transientField (name : String) (k : Kind) : FieldDecl Kind :=
  { Name := name, PkgPath := "", Typ := k, Tag := ⟨[("transient", "true")]⟩ }

/-- The name-to-field table as the specification words it: transient fields are left out,
the other fields are entered under the lower-cased override, else the lower-cased name. -/
def tableSkippingTransient (lower : String → String) (objectType : StructType τ) :
    List (String × StructField τ) :=
  objectType.Fields.foldl
    (fun table f => if f.isTransient then table else (fieldKey lower f, f) :: table) []

/-- The shape `{Id int; IsActive bool transient}`. -/
def flaggedShape : StructType Kind :=
  ⟨[plainField "Id" .int, transientField "IsActive" .bool]⟩

/-- The shape `{A string column:"x"; X string}`. -/
def shadowedShape : StructType Kind :=
  ⟨[columnField "A" .string "x", plainField "X" .string]⟩

/-- Go values of the examples. -/
inductive Val
  | int (n : Int)
  | str (s : String)
  | bool (b : Bool)
  deriving DecidableEq, Repr

/-- Driver values of the examples; `null` is SQL NULL. -/
inductive Cell
  | int (n : Int)
  | str (s : String)
  | bool (b : Bool)
  | null
  deriving DecidableEq, Repr

/-- The runtime of the examples: a cell converts into a destination of its own kind, and
NULL converts into none of the three kinds; the examples supply no other combination. -/
def sampleRuntime : Runtime Kind Val Cell where
  zero := fun k =>
    match k with
    | .int => Val.int 0
    | .string => Val.str ""
    | .bool => Val.bool false
  convertAssign := fun k c =>
    match k, c with
    | .int, .int n => .ok (Val.int n)
    | .string, .str s => .ok (Val.str s)
    | .bool, .bool b => .ok (Val.bool b)
    | _, _ => .error "sql: Scan error: unsupported conversion"
  assignable := fun _ _ => false

/-- The shape `Order{OrderId int; OrderTotal int}`. -/
def orderShape : StructType Kind :=
  ⟨[plainField "OrderId" .int, plainField "OrderTotal" .int]⟩

/-- The shape `Customer{CustomerId int; CustomerName string}`. -/
def customerShape : StructType Kind :=
  ⟨[plainField "CustomerId" .int, plainField "CustomerName" .string]⟩

/-- A join result with the columns of an order followed by those of a customer. -/
def joinRows : Rows Cell :=
  ⟨["order_id", "order_total", "customer_id", "customer_name"],
    [[Cell.int 10, Cell.int 250, Cell.int 3, Cell.str "ann"],
     [Cell.int 11, Cell.int 40, Cell.int 4, Cell.str "bob"]]⟩

/-- A shape without fields, `struct{}`. -/
def emptyShape : StructType Kind := ⟨[]⟩

/-- The shape `{A int transient}`. -/
def markerShape : StructType Kind := ⟨[transientField "A" .int]⟩

/-- The shape `{Y int}`. -/
def amountShape : StructType Kind := ⟨[plainField "Y" .int]⟩

/-- The shape `{y int}`, its field unexported in package `main`. -/
def hiddenShape : StructType Kind :=
  ⟨[{ Name := "y", PkgPath := "main", Typ := .int, Tag := ⟨[]⟩ }]⟩

/-- The field values of the instances of each output row. -/
def rowValues {τ ν : Type} (out : List (List (Instance τ ν))) : List (List (List ν)) :=
  out.map (fun row => row.map Instance.values)

/-- A record `{Id int; Note string transient; Name string}` with values. -/
def noteRecord : Instance Kind Val :=
  ⟨[(plainField "Id" .int, Val.int 5), (transientField "Note" .string, Val.str "n"),
    (plainField "Name" .string, Val.str "ann")]⟩

/-- A record `{Id int; y int}` whose second field is unexported. -/
def hiddenRecord : Instance Kind Val :=
  ⟨[(plainField "Id" .int, Val.int 1),
    ({ Name := "y", PkgPath := "main", Typ := .int, Tag := ⟨[]⟩ }, Val.int 2)]⟩

/-- Whether the event is a `tx.Commit()`. -/
def Event.isCommit : Event → Bool
  | .commit _ _ => true
  | _ => false

/-- Whether the event is a `tx.Rollback()`. -/
def Event.isRollback : Event → Bool
  | .rollback _ _ => true
  | _ => false

/-- Whether the event is a `db.Close()`. -/
def Event.isClose : Event → Bool
  | .close _ _ => true
  | _ => false

/-- Whether the event is a call of the callback. -/
def Event.isCallback : Event → Bool
  | .callback _ _ _ => true
  | _ => false

/-- The panic the unit of work of `ExecuteTransactional` raises, if any: that of the first
of `SetDb`, `SetTx`, `Execute` that panics. -/
def Transactional.raised (transactional : Transactional) (db tx : Nat) : Option PanicValue :=
  match transactional.SetDb db with
  | some r => some r
  | none =>
    match transactional.SetTx tx with
    | some r => some r
    | none => transactional.Execute db tx

/-- The registry after a sequence of `Next` calls. -/
def stateAfter : Sequences → List (String × SqlEnv) → Sequences
  | o, [] => o
  | o, (name, env) :: rest => stateAfter (o.Next env name).1 rest

/-- The traces of the calls made for one name, in call order. -/
def tracesFor (name : String) (runs : List (String × Run Int)) : List (List Event) :=
  (runs.filter (fun r => r.1 == name)).map (fun r => r.2.trace)

/-- A database that opens connection 1, begins transaction 2, reports the given seed for
`max(id)` and refuses to commit. -/
def sampleEnv (seed : Option Int) : SqlEnv where
  sqlOpen := fun _ _ => .ok 1
  begin := fun _ => .ok 2
  commit := fun _ => some "commit failed"
  rollback := fun _ => none
  close := fun _ => none
  queryMaxId := fun _ _ => .ok seed

/-- A database that cannot be opened. -/
def downEnv : SqlEnv where
  sqlOpen := fun _ _ => .error "connection refused"
  begin := fun _ => .error "connection refused"
  commit := fun _ => none
  rollback := fun _ => none
  close := fun _ => none
  queryMaxId := fun _ _ => .error "connection refused"

/-- A configuration with a limit on open connections. -/
def sampleConfig : DatabaseConfig :=
  { DatabaseDriver := "postgres", DatasourceName := "dbname=shop", MaxIdleConns := none,
    MaxOpenConns := some 4, MaxConnLifetime := none }

/-- A unit of work whose methods all return. -/
def quietWork : Transactional :=
  { SetDb := fun _ => none, SetTx := fun _ => none, Execute := fun _ _ => none }

/-- A unit of work whose `Execute` panics. -/
def failingWork : Transactional :=
  { SetDb := fun _ => none, SetTx := fun _ => none, Execute := fun _ _ => some (PanicValue.value "insert failed") }

/-- A unit of work whose `Execute` calls `panic(nil)`. -/
def nilWork : Transactional :=
  { SetDb := fun _ => none, SetTx := fun _ => none, Execute := fun _ _ => some PanicValue.nil }

/-- A callback that returns the number of arguments it was called with. -/
def countingCallback : Nat → Nat → List GoValue → Except PanicValue GoValue :=
  fun _ _ args => .ok (GoValue.int args.length)

/-- A callback that panics. -/
def failingCallback : Nat → Nat → List GoValue → Except PanicValue GoValue :=
  fun _ _ _ => .error (PanicValue.value "insert failed")

/-- A callback that calls `panic(nil)`. -/
def nilCallback : Nat → Nat → List GoValue → Except PanicValue GoValue :=
  fun _ _ _ => .error PanicValue.nil

/-- A database on which connection 1 opens and `Begin` fails. -/
def noBeginEnv : SqlEnv where
  sqlOpen := fun _ _ => .ok 1
  begin := fun _ => .error "too many connections"
  commit := fun _ => none
  rollback := fun _ => none
  close := fun _ => none
  queryMaxId := fun _ _ => .error "too many connections"

/-- The commit, rollback and close calls of a trace, in the order they were made. -/
def lifecycle (trace : List Event) : List Event :=
  trace.filter (fun e => e.isCommit || e.isRollback || e.isClose)

/-- The calls of the callback in a trace. -/
def callbackCalls (trace : List Event) : List Event :=
  trace.filter Event.isCallback

/-- The shape `{Id int; Name string; IsActive bool transient}`. -/
def personShape : StructType Kind :=
  ⟨[plainField "Id" .int, plainField "Name" .string, transientField "IsActive" .bool]⟩

/-- A result set with the columns `id, name` and two rows. -/
def personRows : Rows Cell :=
  ⟨["id", "name"], [[Cell.int 1, Cell.str "ann"], [Cell.int 2, Cell.str "bob"]]⟩

/-- The records the mapper builds from `personRows`. -/
def personRecords : List (Instance Kind Val) :=
  [⟨[(plainField "Id" .int, Val.int 1), (plainField "Name" .string, Val.str "ann"),
      (transientField "IsActive" .bool, Val.bool false)]⟩,
   ⟨[(plainField "Id" .int, Val.int 2), (plainField "Name" .string, Val.str "bob"),
      (transientField "IsActive" .bool, Val.bool false)]⟩]

/-! ## Notions used in the statements and proofs -/

/-- The loop variables `ii` and `t` follow the holders of a field-info list: at each entry
the index `ii` after the pointer comparison is the entry's holder. -/
def tracked : Int → Option Nat → List Nat → Prop
  | _, _, [] => True
  | ii, t, h :: hs => (if t ≠ some h then ii + 1 else ii) = (h : Int) ∧ tracked (h : Int) (some h) hs

/-- The field `j` of the instance `k`, with its declaration. -/
def cellAt (insts : List (Instance τ ν)) (k j : Nat) : Option (FieldDecl τ × ν) :=
  match insts[k]? with
  | some inst => inst.fields[j]?
  | none => none

/-! ## Properties of column resolution -/

theorem fieldsFrom_getElem? (ds : List (FieldDecl τ)) (start i : Nat) :
    (fieldsFrom start ds)[i]? = ds[i]?.map (fun d => d.asField (start + i)) := by
  induction ds generalizing start i with
  | nil => simp [fieldsFrom]
  | cons d ds ih =>
    cases i with
    | zero => simp [fieldsFrom]
    | succ i =>
      simp only [fieldsFrom, List.getElem?_cons_succ, ih]
      congr 1
      funext d
      congr 1
      omega

theorem fieldsFrom_length (ds : List (FieldDecl τ)) (start : Nat) :
    (fieldsFrom start ds).length = ds.length := by
  induction ds generalizing start with
  | nil => rfl
  | cons d ds ih => simp [fieldsFrom, ih]

theorem Field_eq (t : StructType τ) (i : Nat) :
    t.Field i = t.decls[i]?.map (fun d => d.asField i) := by
  simp [StructType.Field, StructType.Fields, fieldsFrom_getElem?]

theorem Field_index (t : StructType τ) (i : Nat) (f : StructField τ)
    (h : t.Field i = some f) : f.Index = i := by
  rw [Field_eq] at h
  cases hd : t.decls[i]? with
  | none => simp [hd] at h
  | some d =>
    simp [hd] at h
    rw [← h]
    rfl

/-- Assignments to other keys do not change what a key reads. -/
theorem lookup_foldl_skip (key : StructField τ → String) (k : String)
    (fs : List (StructField τ)) (acc : List (String × StructField τ))
    (h : ∀ g ∈ fs, key g ≠ k) :
    (fs.foldl (fun m f => (key f, f) :: m) acc).lookup k = acc.lookup k := by
  induction fs generalizing acc with
  | nil => rfl
  | cons g gs ih =>
    simp only [List.foldl_cons]
    rw [ih _ (fun x hx => h x (List.mem_cons_of_mem _ hx))]
    have hg : key g ≠ k := h g (List.mem_cons_self _ _)
    have hb : (k == key g) = false := by
      simp only [beq_eq_false_iff_ne, ne_eq]
      exact fun e => hg e.symm
    simp [List.lookup_cons, hb]

/-- A key reads the last field assigned to it. -/
theorem lookup_foldl_last (key : StructField τ → String) (k : String)
    (pre post : List (StructField τ)) (f : StructField τ)
    (acc : List (String × StructField τ))
    (hk : key f = k) (h : ∀ g ∈ post, key g ≠ k) :
    ((pre ++ f :: post).foldl (fun m f => (key f, f) :: m) acc).lookup k = some f := by
  rw [List.foldl_append, List.foldl_cons, lookup_foldl_skip key k post _ h, ← hk]
  simp

/-- Whatever a key reads is a field that was assigned under that key. -/
theorem lookup_foldl_mem (key : StructField τ → String) (k : String)
    (fs : List (StructField τ)) (acc : List (String × StructField τ)) (f : StructField τ)
    (h : (fs.foldl (fun m f => (key f, f) :: m) acc).lookup k = some f) :
    (f ∈ fs ∧ key f = k) ∨ acc.lookup k = some f := by
  induction fs generalizing acc with
  | nil => exact Or.inr h
  | cons g gs ih =>
    simp only [List.foldl_cons] at h
    rcases ih _ h with h1 | h1
    · exact Or.inl ⟨List.mem_cons_of_mem _ h1.1, h1.2⟩
    · rw [List.lookup_cons] at h1
      by_cases hb : (k == key g) = true
      · rw [hb] at h1
        simp only [Option.some.injEq] at h1
        refine Or.inl ⟨?_, ?_⟩
        · rw [← h1]
          exact List.mem_cons_self _ _
        · rw [← h1]
          exact (beq_iff_eq.mp hb).symm
      · simp only [Bool.not_eq_true] at hb
        rw [hb] at h1
        exact Or.inr h1

/-- A successful resolution has one entry per column: what the map reads for it. -/
theorem resolveColumns_ok (lower : String → String)
    (fieldMap : List (String × StructField τ)) (cols : List String)
    (plan : List (StructField τ)) (h : resolveColumns lower fieldMap cols = .ok plan) :
    plan.length = cols.length ∧
      ∀ (i : Nat) (c : String), cols[i]? = some c → plan[i]? = fieldMap.lookup (lower c) ∧ plan[i]?.isSome := by
  induction cols generalizing plan with
  | nil =>
    simp only [resolveColumns, Except.ok.injEq] at h
    subst h
    simp
  | cons col rest ih =>
    simp only [resolveColumns] at h
    cases hl : fieldMap.lookup (lower col) with
    | none => simp [hl] at h
    | some f =>
      cases hr : resolveColumns lower fieldMap rest with
      | error e => simp [hl, hr] at h
      | ok fields =>
        simp only [hl, hr, Except.ok.injEq] at h
        subst h
        obtain ⟨h1, h2⟩ := ih fields hr
        refine ⟨by simp [h1], ?_⟩
        intro i c hc
        cases i with
        | zero =>
          simp only [List.getElem?_cons_zero, Option.some.injEq] at hc
          subst hc
          simp [hl]
        | succ i =>
          simp only [List.getElem?_cons_succ] at hc ⊢
          exact h2 i c hc

/-- Resolution succeeds exactly when the map reads a field for every column. -/
theorem resolveColumns_isOk (lower : String → String)
    (fieldMap : List (String × StructField τ)) (cols : List String)
    (h : ∀ c ∈ cols, (fieldMap.lookup (lower c)).isSome) :
    ∃ plan, resolveColumns lower fieldMap cols = .ok plan := by
  induction cols with
  | nil => exact ⟨[], rfl⟩
  | cons col rest ih =>
    obtain ⟨plan, hp⟩ := ih (fun c hc => h c (List.mem_cons_of_mem _ hc))
    have h0 := h col (List.mem_cons_self _ _)
    cases hl : fieldMap.lookup (lower col) with
    | none => simp [hl] at h0
    | some f => exact ⟨f :: plan, by simp [resolveColumns, hl, hp]⟩

/-- A key under which some field was assigned reads a field. -/
theorem lookup_foldl_isSome (key : StructField τ → String) (k : String)
    (fs : List (StructField τ)) (acc : List (String × StructField τ))
    (h : (∃ g ∈ fs, key g = k) ∨ (acc.lookup k).isSome = true) :
    ((fs.foldl (fun m f => (key f, f) :: m) acc).lookup k).isSome = true := by
  induction fs generalizing acc with
  | nil =>
    rcases h with ⟨g, hg, _⟩ | h
    · simp at hg
    · exact h
  | cons g gs ih =>
    simp only [List.foldl_cons]
    apply ih
    rcases h with ⟨x, hx, hk⟩ | h
    · rcases List.mem_cons.mp hx with rfl | hx
      · right
        rw [hk]
        simp
      · exact Or.inl ⟨x, hx, hk⟩
    · right
      rw [List.lookup_cons]
      cases hb : (k == key g) with
      | true => rfl
      | false => exact h

/-- Resolution succeeds exactly when every lower-cased column name is the key under which
the first loop stored some field (the empty key for a transient field). -/
theorem buildFieldListByNames_succeeds_iff (lower : String → String)
    (objectType : StructType τ) (cols : List String) :
    (∃ plan, buildFieldListByNames lower objectType cols = .ok plan) ↔
      ∀ c ∈ cols, ∃ f ∈ objectType.Fields, fieldKey lower f = lower c := by
  constructor
  · rintro ⟨plan, hp⟩ c hc
    obtain ⟨i, hi⟩ := List.mem_iff_getElem?.mp hc
    obtain ⟨h1, h2⟩ := (resolveColumns_ok lower _ cols plan hp).2 i c hi
    rw [h1] at h2
    cases hl : (buildFieldMap lower objectType).lookup (lower c) with
    | none => simp [hl] at h2
    | some f =>
      rcases lookup_foldl_mem (fieldKey lower) (lower c) objectType.Fields [] f hl with h | h
      · exact ⟨f, h.1, h.2⟩
      · simp at h
  · intro h
    apply resolveColumns_isOk
    intro c hc
    exact lookup_foldl_isSome (fieldKey lower) (lower c) objectType.Fields []
      (Or.inl (h c hc))

/-- The key of a field that is not transient and carries a `column` override. -/
theorem fieldKey_override (lower : String → String) (f : StructField τ) (tag : String)
    (hnt : f.isTransient = false) (htag : f.Tag.Lookup "column" = some tag) :
    fieldKey lower f = lower tag := by
  unfold StructField.isTransient at hnt
  cases ht : f.Tag.Lookup "transient" with
  | some x => simp [ht] at hnt
  | none => simp [fieldKey, ht, htag]

/-- C1 (amended): when resolution succeeds, a column whose lower-cased name equals the
lower-cased `column` override of a non-transient field `F` is bound to `F`, provided no
field declared after `F` is entered in the name-to-field table under that same key. -/
theorem buildFieldListByNames_binds_override (lower : String → String)
    (objectType : StructType τ) (cols : List String) (plan : List (StructField τ))
    (i j : Nat) (c tag : String) (F : StructField τ)
    (hF : objectType.Field j = some F)
    (hnt : F.isTransient = false)
    (htag : F.Tag.Lookup "column" = some tag)
    (hc : cols[i]? = some c)
    (hcase : lower c = lower tag)
    (hlast : ∀ (j2 : Nat) (G : StructField τ), j < j2 → objectType.Field j2 = some G →
      fieldKey lower G ≠ lower tag)
    (hok : buildFieldListByNames lower objectType cols = .ok plan) :
    plan[i]? = some F := by
  have hres := (resolveColumns_ok lower _ cols plan hok).2 i c hc
  rw [hres.1, hcase]
  unfold StructType.Field at hF hlast
  obtain ⟨hj, hFj⟩ := List.getElem?_eq_some.mp hF
  have hsplit : objectType.Fields =
      objectType.Fields.take j ++ F :: objectType.Fields.drop (j + 1) := by
    rw [← hFj, ← List.drop_eq_getElem_cons hj, List.take_append_drop]
  unfold buildFieldMap
  rw [hsplit]
  apply lookup_foldl_last (fieldKey lower) (lower tag)
  · exact fieldKey_override lower F tag hnt htag
  · intro g hg
    obtain ⟨n, hn⟩ := List.mem_iff_getElem?.mp hg
    rw [List.getElem?_drop] at hn
    exact hlast (j + 1 + n) g (by omega) hn

/-- C1, witness: in `{Id int column:"ident"; Name string}` the column `IDENT` is bound
to `Id`. -/
theorem buildFieldListByNames_binds_override_witness :
    buildFieldListByNames asciiLower
        (⟨[columnField "Id" .int "ident", plainField "Name" .string]⟩ : StructType Kind)
        ["name", "IDENT"] =
        .ok [(plainField "Name" .string).asField 1, (columnField "Id" .int "ident").asField 0] ∧
      [(plainField "Name" .string).asField 1, (columnField "Id" .int "ident").asField 0][1]? =
        some ((columnField "Id" .int "ident").asField 0) :=
  ⟨rfl, buildFieldListByNames_binds_override asciiLower
    ⟨[columnField "Id" .int "ident", plainField "Name" .string]⟩ ["name", "IDENT"]
    [(plainField "Name" .string).asField 1, (columnField "Id" .int "ident").asField 0]
    1 0 "IDENT" "ident" ((columnField "Id" .int "ident").asField 0)
    rfl rfl rfl rfl rfl
    (by
      intro j2 G hj hG
      rw [Field_eq] at hG
      match j2, hj, hG with
      | 1, _, hG =>
        simp only [List.getElem?_cons_succ, List.getElem?_cons_zero, Option.map_some',
          Option.some.injEq] at hG
        subst hG
        decide
      | n + 2, _, hG => simp at hG)
    rfl⟩

/-- C1, counterexample: in `{A string column:"x"; X string}` the column `x` equals the
override of the non-transient field `A`, and the plan binds it to the later field `X`. -/
theorem override_shadowed_by_later_field :
    shadowedShape.Field 0 = some ((columnField "A" .string "x").asField 0) ∧
      ((columnField "A" .string "x").asField 0).isTransient = false ∧
      ((columnField "A" .string "x").asField 0).Tag.Lookup "column" = some "x" ∧
      asciiLower "x" = asciiLower "x" ∧
      buildFieldListByNames asciiLower shadowedShape ["x"] =
        .ok [(plainField "X" .string).asField 1] ∧
      (plainField "X" .string).asField 1 ≠ (columnField "A" .string "x").asField 0 :=
  ⟨rfl, rfl, rfl, rfl, rfl, by decide⟩

/-- C2, the code at the failing input: for `{Id int; IsActive bool transient}` and the
columns `id` and the empty name, resolution succeeds and binds the empty-named column to
the transient field `IsActive`, and the mapper writes that column's value into it. -/
theorem transient_field_bound_to_empty_column :
    buildFieldListByNames asciiLower flaggedShape ["id", ""] =
        .ok [(plainField "Id" .int).asField 0, (transientField "IsActive" .bool).asField 1] ∧
      ((transientField "IsActive" .bool).asField 1).isTransient = true ∧
      (QueryStructNStmt sampleRuntime asciiLower
          (.ok ⟨["id", ""], [[Cell.int 7, Cell.bool true]]⟩) flaggedShape).map
          (fun arr => arr.map Instance.values) =
        .ok [[Val.int 7, Val.bool true]] :=
  ⟨rfl, rfl, rfl⟩

/-- C3, the code at the failing input: for `{Id int; IsActive bool transient}` the empty
column name is no key of the table that skips transient fields, yet resolution succeeds
and the mapper returns one record per row. -/
theorem empty_column_resolves_without_table_key :
    (tableSkippingTransient asciiLower flaggedShape).lookup (asciiLower "") = none ∧
      buildFieldListByNames asciiLower flaggedShape [""] =
        .ok [(transientField "IsActive" .bool).asField 1] ∧
      (QueryStructNStmt sampleRuntime asciiLower
          (.ok ⟨[""], [[Cell.bool true], [Cell.bool false]]⟩) flaggedShape).map
          (fun arr => arr.map Instance.values) =
        .ok [[Val.int 0, Val.bool true], [Val.int 0, Val.bool false]] :=
  ⟨rfl, rfl, rfl⟩

/-! ## Properties of the single-shape mapper -/

theorem convertCells_ok (rt : Runtime τ ν δ) (types : List τ) (row : List δ) (buffer : List ν)
    (hlen : types.length = row.length) (h : convertCells rt types row = .ok buffer) :
    buffer.length = types.length ∧
      ∀ (i : Nat) (ty : τ) (c : δ), types[i]? = some ty → row[i]? = some c →
        ∃ v, buffer[i]? = some v ∧ rt.convertAssign ty c = .ok v := by
  induction types generalizing row buffer with
  | nil =>
    simp only [convertCells, Except.ok.injEq] at h
    subst h
    simp
  | cons ty tys ih =>
    cases row with
    | nil => simp at hlen
    | cons c cs =>
      simp only [convertCells] at h
      cases hv : rt.convertAssign ty c with
      | error e => simp [hv] at h
      | ok v =>
        cases hr : convertCells rt tys cs with
        | error e => simp [hv, hr] at h
        | ok vs =>
          simp only [hv, hr, Except.ok.injEq] at h
          subst h
          simp only [List.length_cons, Nat.add_right_cancel_iff] at hlen
          obtain ⟨h1, h2⟩ := ih cs vs hlen hr
          refine ⟨by simp [h1], ?_⟩
          intro i ty2 c2 hty hc
          cases i with
          | zero =>
            simp only [List.getElem?_cons_zero, Option.some.injEq] at hty hc
            subst hty
            subst hc
            exact ⟨v, by simp, hv⟩
          | succ i =>
            simp only [List.getElem?_cons_succ] at hty hc ⊢
            exact h2 i ty2 c2 hty hc

theorem Scan_ok (rt : Runtime τ ν δ) (types : List τ) (row : List δ) (buffer : List ν)
    (h : Scan rt types row = .ok buffer) :
    types.length = row.length ∧ buffer.length = types.length ∧
      ∀ (i : Nat) (ty : τ) (c : δ), types[i]? = some ty → row[i]? = some c →
        ∃ v, buffer[i]? = some v ∧ rt.convertAssign ty c = .ok v := by
  unfold Scan at h
  by_cases hlen : types.length = row.length
  · simp only [hlen, ne_eq, not_true_eq_false, ↓reduceIte] at h
    exact ⟨hlen, convertCells_ok rt types row buffer hlen h⟩
  · simp [hlen] at h

/-- A successful `Set` replaces the value of an exported field of the object. -/
theorem Set_ok [DecidableEq τ] (rt : Runtime τ ν δ) (object o1 : Instance τ ν)
    (f : StructField τ) (v : ν) (h : object.Set rt f v = .ok o1) :
    ∃ d old, object.fields[f.Index]? = some (d, old) ∧ d.PkgPath = "" ∧
      o1.fields = object.fields.set f.Index (d, v) := by
  unfold Instance.Set at h
  cases hg : object.fields[f.Index]? with
  | none => simp [hg] at h
  | some p =>
    obtain ⟨d, old⟩ := p
    simp only [hg] at h
    by_cases hp : d.PkgPath = ""
    · by_cases ha : f.Typ = d.Typ ∨ rt.assignable f.Typ d.Typ = true
      · simp only [hp, ne_eq, not_true_eq_false, ↓reduceIte, ha, Except.ok.injEq] at h
        exact ⟨d, old, rfl, hp, by rw [← h]⟩
      · simp [hp, ha] at h
    · simp [hp] at h

theorem Set_type [DecidableEq τ] (rt : Runtime τ ν δ) (object o1 : Instance τ ν)
    (f : StructField τ) (v : ν) (h : object.Set rt f v = .ok o1) :
    o1.type = object.type := by
  obtain ⟨d, old, hg, _, hf⟩ := Set_ok rt object o1 f v h
  unfold Instance.type
  congr 1
  apply List.ext_getElem?
  intro n
  rw [hf, List.getElem?_map, List.getElem?_map, List.getElem?_set]
  by_cases hn : f.Index = n
  · subst hn
    simp only [↓reduceIte, hg, Option.map_some']
    have hlt : f.Index < object.fields.length := by
      obtain ⟨hlt, _⟩ := List.getElem?_eq_some.mp hg
      exact hlt
    simp [hlt]
  · simp [hn]

/-- What the copy loop leaves in the object: its type, the fields no slot is bound to, and
for each slot that is the last one bound to its field, the slot's value. -/
theorem copyBuffer_ok [DecidableEq τ] (rt : Runtime τ ν δ) (fs : List (StructField τ))
    (vs : List ν) (object o1 : Instance τ ν) (hlen : fs.length = vs.length)
    (h : copyBuffer rt object fs vs = .ok o1) :
    o1.type = object.type ∧
      (∀ (j : Nat), (∀ (i : Nat) (f : StructField τ), fs[i]? = some f → f.Index ≠ j) →
        o1.fields[j]? = object.fields[j]?) ∧
      (∀ (i : Nat) (f : StructField τ) (v : ν), fs[i]? = some f → vs[i]? = some v →
        (∀ (i2 : Nat) (f2 : StructField τ), i < i2 → fs[i2]? = some f2 →
          f2.Index ≠ f.Index) →
        o1.values[f.Index]? = some v) := by
  induction fs generalizing vs object with
  | nil =>
    simp only [copyBuffer, Except.ok.injEq] at h
    subst h
    simp
  | cons f fs ih =>
    cases vs with
    | nil => simp at hlen
    | cons v vs =>
      simp only [copyBuffer] at h
      cases hs : object.Set rt f v with
      | error e => simp [hs] at h
      | ok object1 =>
        simp only [hs] at h
        simp only [List.length_cons, Nat.add_right_cancel_iff] at hlen
        obtain ⟨ht, hkeep, hlast⟩ := ih vs object1 hlen h
        obtain ⟨d, old, hg, _, hf⟩ := Set_ok rt object object1 f v hs
        refine ⟨by rw [ht, Set_type rt object object1 f v hs], ?_, ?_⟩
        · intro j hj
          rw [hkeep j (fun i g hg2 => hj (i + 1) g (by simpa using hg2)), hf]
          exact List.getElem?_set_ne (hj 0 f (by simp))
        · intro i g w hg2 hw hlater
          cases i with
          | zero =>
            simp only [List.getElem?_cons_zero, Option.some.injEq] at hg2 hw
            subst hg2
            subst hw
            have hk := hkeep f.Index
              (fun i2 f2 h2 => hlater (i2 + 1) f2 (by omega) (by simpa using h2))
            unfold Instance.values
            rw [List.getElem?_map, hk, hf]
            have hlt : f.Index < object.fields.length := by
              obtain ⟨hlt, _⟩ := List.getElem?_eq_some.mp hg
              exact hlt
            simp [hlt]
          | succ i =>
            simp only [List.getElem?_cons_succ] at hg2 hw
            exact hlast i g w hg2 hw
              (fun i2 f2 hi2 h2 => hlater (i2 + 1) f2 (by omega) (by simpa using h2))

/-- A successful row loop yields one object per row, in row order, each one the copy of
the scanned row into a fresh object. -/
theorem mapRows_ok [DecidableEq τ] (rt : Runtime τ ν δ) (objectType : StructType τ)
    (fields : List (StructField τ)) (rows : List (List δ)) (out : List (Instance τ ν))
    (h : mapRows rt objectType fields rows = .ok out) :
    out.length = rows.length ∧
      ∀ (k : Nat) (row : List δ) (object : Instance τ ν),
        rows[k]? = some row → out[k]? = some object →
        ∃ buffer, Scan rt (fields.map (fun f => f.Typ)) row = .ok buffer ∧
          copyBuffer rt (newInstance rt objectType) fields buffer = .ok object := by
  induction rows generalizing out with
  | nil =>
    simp only [mapRows, Except.ok.injEq] at h
    subst h
    simp
  | cons row rest ih =>
    simp only [mapRows] at h
    cases hs : Scan rt (fields.map (fun f => f.Typ)) row with
    | error e => simp [hs] at h
    | ok buffer =>
      cases hc : copyBuffer rt (newInstance rt objectType) fields buffer with
      | error e => simp [hs, hc] at h
      | ok object =>
        cases hr : mapRows rt objectType fields rest with
        | error e => simp [hs, hc, hr] at h
        | ok arr =>
          simp only [hs, hc, hr, Except.ok.injEq] at h
          subst h
          obtain ⟨h1, h2⟩ := ih arr hr
          refine ⟨by simp [h1], ?_⟩
          intro k row2 object2 hk ho
          cases k with
          | zero =>
            simp only [List.getElem?_cons_zero, Option.some.injEq] at hk ho
            subst hk
            subst ho
            exact ⟨buffer, hs, hc⟩
          | succ k =>
            simp only [List.getElem?_cons_succ] at hk ho
            exact h2 k row2 object2 hk ho

theorem newInstance_type (rt : Runtime τ ν δ) (t : StructType τ) :
    (newInstance rt t).type = t := by
  unfold Instance.type newInstance
  simp [Function.comp_def]

theorem newInstance_fields (rt : Runtime τ ν δ) (t : StructType τ) (j : Nat) :
    (newInstance rt t).fields[j]? = t.decls[j]?.map (fun d => (d, rt.zero d.Typ)) := by
  simp [newInstance]

/-- C4: when `QueryStructNStmt` succeeds on a result set, the column plan exists, the
output has one record per result row in row order, and in the record of row `k` the field
bound to column `i` holds the scanned value of that row's cell `i` (for the last column
bound to that field), while every field bound to no column holds its zero value. -/
theorem QueryStructNStmt_records [DecidableEq τ] (rt : Runtime τ ν δ)
    (lower : String → String) (r : Rows δ) (objectType : StructType τ)
    (out : List (Instance τ ν))
    (h : QueryStructNStmt rt lower (.ok r) objectType = .ok out) :
    ∃ plan, buildFieldListByNames lower objectType r.columns = .ok plan ∧
      out.length = r.rows.length ∧
      ∀ (k : Nat) (row : List δ) (object : Instance τ ν),
        r.rows[k]? = some row → out[k]? = some object →
        object.type = objectType ∧
        (∀ (i : Nat) (f : StructField τ), plan[i]? = some f →
          (∀ (i2 : Nat) (f2 : StructField τ), i < i2 → plan[i2]? = some f2 →
            f2.Index ≠ f.Index) →
          ∃ c v, row[i]? = some c ∧ rt.convertAssign f.Typ c = .ok v ∧
            object.values[f.Index]? = some v) ∧
        (∀ (j : Nat) (d : FieldDecl τ), objectType.decls[j]? = some d →
          (∀ (i : Nat) (f : StructField τ), plan[i]? = some f → f.Index ≠ j) →
          object.values[j]? = some (rt.zero d.Typ)) := by
  simp only [QueryStructNStmt] at h
  by_cases hcount : r.columns.length > objectType.NumField
  · simp [hcount] at h
  · simp only [hcount, ↓reduceIte] at h
    cases hb : buildFieldListByNames lower objectType r.columns with
    | error e => simp [hb] at h
    | ok plan =>
      simp only [hb] at h
      obtain ⟨hlen, hrows⟩ := mapRows_ok rt objectType plan r.rows out h
      refine ⟨plan, rfl, hlen, ?_⟩
      intro k row object hk ho
      obtain ⟨buffer, hscan, hcopy⟩ := hrows k row object hk ho
      obtain ⟨hrl, hbl, hconv⟩ := Scan_ok rt _ row buffer hscan
      simp only [List.length_map] at hrl hbl
      obtain ⟨ht, hkeep, hlast⟩ :=
        copyBuffer_ok rt plan buffer (newInstance rt objectType) object hbl.symm hcopy
      refine ⟨by rw [ht, newInstance_type], ?_, ?_⟩
      · intro i f hf hlater
        have hi : i < plan.length := (List.getElem?_eq_some.mp hf).1
        have hc : row[i]? = some (row[i]) := List.getElem?_eq_getElem (by omega)
        obtain ⟨v, hv, hcv⟩ := hconv i f.Typ (row[i]) (by simp [hf]) hc
        exact ⟨row[i], v, hc, hcv, hlast i f v hf hv hlater⟩
      · intro j d hd hnone
        unfold Instance.values
        rw [List.getElem?_map, hkeep j hnone, newInstance_fields, hd]
        rfl

/-- C4, witness: `{Id int; Name string; IsActive bool transient}` with columns
`id, name` and two rows. -/
theorem QueryStructNStmt_records_witness :
    QueryStructNStmt sampleRuntime asciiLower (.ok personRows) personShape =
      .ok personRecords ∧
    ∃ plan, buildFieldListByNames asciiLower personShape personRows.columns = .ok plan ∧
      personRecords.length = personRows.rows.length ∧
      ∀ (k : Nat) (row : List Cell) (object : Instance Kind Val),
        personRows.rows[k]? = some row → personRecords[k]? = some object →
        object.type = personShape ∧
        (∀ (i : Nat) (f : StructField Kind), plan[i]? = some f →
          (∀ (i2 : Nat) (f2 : StructField Kind), i < i2 → plan[i2]? = some f2 →
            f2.Index ≠ f.Index) →
          ∃ c v, row[i]? = some c ∧ sampleRuntime.convertAssign f.Typ c = .ok v ∧
            object.values[f.Index]? = some v) ∧
        (∀ (j : Nat) (d : FieldDecl Kind), personShape.decls[j]? = some d →
          (∀ (i : Nat) (f : StructField Kind), plan[i]? = some f → f.Index ≠ j) →
          object.values[j]? = some (sampleRuntime.zero d.Typ)) :=
  ⟨rfl, QueryStructNStmt_records sampleRuntime asciiLower personRows personShape
    personRecords rfl⟩

/-! ## Properties of the multi-shape mapper -/

theorem cellAt_set_ne (insts : List (Instance τ ν)) (inst inst1 : Instance τ ν)
    (h x k j : Nat) (c : FieldDecl τ × ν) (hi : insts[h]? = some inst)
    (hf : inst1.fields = inst.fields.set x c) (hne : ¬(h = k ∧ x = j)) :
    cellAt (insts.set h inst1) k j = cellAt insts k j := by
  unfold cellAt
  by_cases hk : h = k
  · subst hk
    have hlt : h < insts.length := (List.getElem?_eq_some.mp hi).1
    have hx : x ≠ j := fun e => hne ⟨rfl, e⟩
    simp [hlt, hi, hf, List.getElem?_set_ne hx]
  · rw [List.getElem?_set_ne hk]

theorem cellAt_set_eq (insts : List (Instance τ ν)) (inst inst1 : Instance τ ν)
    (h x : Nat) (c c0 : FieldDecl τ × ν) (hi : insts[h]? = some inst)
    (hx : inst.fields[x]? = some c0) (hf : inst1.fields = inst.fields.set x c) :
    cellAt (insts.set h inst1) h x = some c := by
  unfold cellAt
  have hlt : h < insts.length := (List.getElem?_eq_some.mp hi).1
  have hxl : x < inst.fields.length := (List.getElem?_eq_some.mp hx).1
  simp [hlt, hf, hxl]

theorem Set_succeeds [DecidableEq τ] (rt : Runtime τ ν δ) (object : Instance τ ν)
    (f : StructField τ) (v w : ν) (d : FieldDecl τ)
    (hg : object.fields[f.Index]? = some (d, w)) (hp : d.PkgPath = "")
    (ht : f.Typ = d.Typ) :
    object.Set rt f v = .ok ⟨object.fields.set f.Index (d, v)⟩ := by
  unfold Instance.Set
  simp [hg, hp, ht]

theorem map_type_set (insts : List (Instance τ ν)) (inst inst1 : Instance τ ν) (h : Nat)
    (hi : insts[h]? = some inst) (ht : inst1.type = inst.type) :
    (insts.set h inst1).map Instance.type = insts.map Instance.type := by
  apply List.ext_getElem?
  intro n
  rw [List.getElem?_map, List.getElem?_map, List.getElem?_set]
  by_cases hn : h = n
  · subst hn
    have hlt : h < insts.length := (List.getElem?_eq_some.mp hi).1
    simp [hlt, hi, ht]
  · simp [hn]

/-- The field-info loop under tracked loop variables, on instances whose addressed fields
are exported and of the slot's type: it succeeds, keeps the types, leaves alone every
field no non-transient entry addresses, and a non-transient entry that is the last one
addressing its field leaves its slot's value there. -/
theorem assignRow_ok [DecidableEq τ] (rt : Runtime τ ν δ) (infos : List (FieldInfo τ))
    (vals : List ν) (ii : Int) (t : Option Nat) (insts : List (Instance τ ν))
    (hlen : infos.length = vals.length)
    (htr : tracked ii t (infos.map (fun fi => fi.HolderType)))
    (htyp : ∀ fi ∈ infos, fi.StructField.isTransient = false →
      ∃ ty d, (insts.map Instance.type)[fi.HolderType]? = some ty ∧
        ty.decls[fi.StructField.Index]? = some d ∧ d.PkgPath = "" ∧
        fi.StructField.Typ = d.Typ) :
    ∃ insts1, assignRow rt ii t insts infos vals = .ok insts1 ∧
      insts1.map Instance.type = insts.map Instance.type ∧
      (∀ (k j : Nat),
        (∀ fi ∈ infos, fi.StructField.isTransient = false →
          ¬(fi.HolderType = k ∧ fi.StructField.Index = j)) →
        cellAt insts1 k j = cellAt insts k j) ∧
      (∀ (p : Nat) (fi : FieldInfo τ) (v : ν), infos[p]? = some fi → vals[p]? = some v →
        fi.StructField.isTransient = false →
        (∀ (p2 : Nat) (fi2 : FieldInfo τ), p < p2 → infos[p2]? = some fi2 →
          fi2.StructField.isTransient = false →
          ¬(fi2.HolderType = fi.HolderType ∧ fi2.StructField.Index = fi.StructField.Index)) →
        ∃ d, cellAt insts1 fi.HolderType fi.StructField.Index = some (d, v)) := by
  induction infos generalizing vals ii t insts with
  | nil =>
    refine ⟨insts, ?_, rfl, fun _ _ _ => rfl, ?_⟩
    · cases vals <;> rfl
    · intro p fi v hp
      simp at hp
  | cons fi fis ih =>
    cases vals with
    | nil => simp at hlen
    | cons v vs =>
      simp only [List.length_cons, Nat.add_right_cancel_iff] at hlen
      simp only [List.map_cons, tracked] at htr
      obtain ⟨hii, htr2⟩ := htr
      have ht1 : (if t ≠ some fi.HolderType then some fi.HolderType else t) =
          some fi.HolderType := by
        by_cases e : t = some fi.HolderType
        · simp [e]
        · simp [e]
      have hstep : ∀ insts2 : List (Instance τ ν),
          assignRow rt (if t ≠ some fi.HolderType then ii + 1 else ii)
            (if t ≠ some fi.HolderType then some fi.HolderType else t) insts2 fis vs =
          assignRow rt (fi.HolderType : Int) (some fi.HolderType) insts2 fis vs := by
        intro insts2
        rw [hii, ht1]
      by_cases htrans : fi.StructField.isTransient = true
      · -- a transient entry is skipped
        obtain ⟨insts1, hrun, hty, hkeep, hlast⟩ := ih vs _ _ insts hlen htr2
          (fun g hg => htyp g (List.mem_cons_of_mem _ hg))
        refine ⟨insts1, ?_, hty, ?_, ?_⟩
        · simp only [assignRow, htrans, ↓reduceIte]
          rw [hstep]
          exact hrun
        · intro k j hkj
          exact hkeep k j (fun g hg => hkj g (List.mem_cons_of_mem _ hg))
        · intro p g w hg hw hnt hlater
          cases p with
          | zero =>
            simp only [List.getElem?_cons_zero, Option.some.injEq] at hg
            subst hg
            rw [htrans] at hnt
            exact absurd hnt (by decide)
          | succ p =>
            simp only [List.getElem?_cons_succ] at hg hw
            exact hlast p g w hg hw hnt
              (fun p2 g2 hp2 h2 => hlater (p2 + 1) g2 (by omega) (by simpa using h2))
      · -- a bound entry is set into the instance of its holder
        simp only [Bool.not_eq_true] at htrans
        obtain ⟨ty, d, hty0, hd, hpkg, htypeq⟩ := htyp fi (List.mem_cons_self _ _) htrans
        rw [List.getElem?_map] at hty0
        cases hinst : insts[fi.HolderType]? with
        | none => simp [hinst] at hty0
        | some inst =>
          simp only [hinst, Option.map_some', Option.some.injEq] at hty0
          have hcell : ∃ w, inst.fields[fi.StructField.Index]? = some (d, w) := by
            have hm : (inst.fields.map Prod.fst)[fi.StructField.Index]? = some d := by
              have : inst.type.decls = inst.fields.map Prod.fst := rfl
              rw [← this, hty0]
              exact hd
            rw [List.getElem?_map] at hm
            cases hc : inst.fields[fi.StructField.Index]? with
            | none => simp [hc] at hm
            | some c =>
              obtain ⟨d2, w⟩ := c
              simp only [hc, Option.map_some', Option.some.injEq] at hm
              exact ⟨w, by rw [hm]⟩
          obtain ⟨w, hw0⟩ := hcell
          have hset := Set_succeeds rt inst fi.StructField v w d hw0 hpkg htypeq
          have hset_type : (⟨inst.fields.set fi.StructField.Index (d, v)⟩ : Instance τ ν).type =
              inst.type := Set_type rt inst _ fi.StructField v hset
          have hmt := map_type_set insts inst ⟨inst.fields.set fi.StructField.Index (d, v)⟩
            fi.HolderType hinst hset_type
          obtain ⟨insts1, hrun, hty, hkeep, hlast⟩ := ih vs _ _
            (insts.set fi.HolderType ⟨inst.fields.set fi.StructField.Index (d, v)⟩) hlen htr2
            (fun g hg hnt => by
              rw [hmt]
              exact htyp g (List.mem_cons_of_mem _ hg) hnt)
          refine ⟨insts1, ?_, by rw [hty, hmt], ?_, ?_⟩
          · simp only [assignRow, htrans, Bool.false_eq_true, ↓reduceIte]
            rw [hii]
            simp only [Int.toNat_ofNat, Int.ofNat_nonneg, Nat.cast_nonneg, ↓reduceIte, hinst,
              hset]
            rw [ht1]
            exact hrun
          · intro k j hkj
            rw [hkeep k j (fun g hg => hkj g (List.mem_cons_of_mem _ hg))]
            exact cellAt_set_ne insts inst _ fi.HolderType fi.StructField.Index k j (d, v)
              hinst rfl (hkj fi (List.mem_cons_self _ _) htrans)
          · intro p g u hg hu hnt hlater
            cases p with
            | zero =>
              simp only [List.getElem?_cons_zero, Option.some.injEq] at hg hu
              subst hg
              subst hu
              refine ⟨d, ?_⟩
              rw [hkeep fi.HolderType fi.StructField.Index
                (fun g hg hgnt => by
                  obtain ⟨n, hn⟩ := List.mem_iff_getElem?.mp hg
                  exact hlater (n + 1) g (by omega) (by simpa using hn) hgnt)]
              exact cellAt_set_eq insts inst _ fi.HolderType fi.StructField.Index (d, v) (d, w)
                hinst hw0 rfl
            | succ p =>
              simp only [List.getElem?_cons_succ] at hg hu
              exact hlast p g u hg hu hnt
                (fun p2 g2 hp2 h2 => hlater (p2 + 1) g2 (by omega) (by simpa using h2))

theorem Fields_length (t : StructType τ) : t.Fields.length = t.NumField := by
  simp [StructType.Fields, StructType.NumField, fieldsFrom_length]

theorem Fields_getElem? (t : StructType τ) (j : Nat) :
    t.Fields[j]? = t.decls[j]?.map (fun d => d.asField j) := by
  simp [StructType.Fields, fieldsFrom_getElem?]

theorem fieldInfosFrom_length (ts : List (StructType τ)) (i : Nat) :
    (fieldInfosFrom i ts).length = (ts.map StructType.NumField).sum := by
  induction ts generalizing i with
  | nil => rfl
  | cons t ts ih => simp [fieldInfosFrom, ih, Fields_length]

/-- Every entry of the flattened list is a declared field of one of the shapes, at the
position given by the field counts of the shapes before it. -/
theorem fieldInfosFrom_some (ts : List (StructType τ)) (i p : Nat) (fi : FieldInfo τ)
    (h : (fieldInfosFrom i ts)[p]? = some fi) :
    ∃ k t j d, ts[k]? = some t ∧ t.decls[j]? = some d ∧ fi = ⟨i + k, d.asField j⟩ ∧
      p = ((ts.take k).map StructType.NumField).sum + j := by
  induction ts generalizing i p with
  | nil => simp [fieldInfosFrom] at h
  | cons t ts ih =>
    simp only [fieldInfosFrom] at h
    by_cases hp : p < t.NumField
    · rw [List.getElem?_append_left (by simpa [Fields_length] using hp), List.getElem?_map,
        Fields_getElem?] at h
      cases hd : t.decls[p]? with
      | none => simp [hd] at h
      | some d =>
        simp only [hd, Option.map_some', Option.some.injEq] at h
        exact ⟨0, t, p, d, by simp, hd, by rw [← h]; rfl, by simp⟩
    · rw [List.getElem?_append_right (by simpa [Fields_length] using hp)] at h
      simp only [List.length_map, Fields_length] at h
      obtain ⟨k, t2, j, d, hk, hd, hfi, hpos⟩ := ih (i + 1) (p - t.NumField) h
      refine ⟨k + 1, t2, j, d, by simpa using hk, hd, ?_, ?_⟩
      · rw [hfi]
        congr 1
        omega
      · simp only [List.take_succ_cons, List.map_cons, List.sum_cons]
        omega

/-- Field `j` of shape `k` sits at the position given by the field counts before it. -/
theorem fieldInfosFrom_at (ts : List (StructType τ)) (i k j : Nat) (t : StructType τ)
    (d : FieldDecl τ) (hk : ts[k]? = some t) (hd : t.decls[j]? = some d) :
    (fieldInfosFrom i ts)[((ts.take k).map StructType.NumField).sum + j]? =
      some ⟨i + k, d.asField j⟩ := by
  induction ts generalizing i k with
  | nil => simp at hk
  | cons t0 ts ih =>
    have hj : j < t.NumField := (List.getElem?_eq_some.mp hd).1
    cases k with
    | zero =>
      simp only [List.getElem?_cons_zero, Option.some.injEq] at hk
      subst hk
      simp only [fieldInfosFrom, List.take_zero, List.map_nil, List.sum_nil, Nat.zero_add,
        Nat.add_zero]
      rw [List.getElem?_append_left (by simpa [Fields_length] using hj), List.getElem?_map,
        Fields_getElem?, hd]
      rfl
    | succ k =>
      simp only [List.getElem?_cons_succ] at hk
      simp only [fieldInfosFrom, List.take_succ_cons, List.map_cons, List.sum_cons]
      rw [List.getElem?_append_right (by simp [Fields_length]; omega)]
      simp only [List.length_map, Fields_length]
      have h2 := ih (i + 1) k hk
      have e1 : t0.NumField + (List.map StructType.NumField (List.take k ts)).sum + j -
          t0.NumField = (List.map StructType.NumField (List.take k ts)).sum + j := by omega
      have e2 : i + (k + 1) = i + 1 + k := by omega
      rw [e1, e2]
      exact h2

theorem tracked_replicate (i m : Nat) (hs : List Nat) (h : tracked (i : Int) (some i) hs) :
    tracked (i : Int) (some i) (List.replicate m i ++ hs) := by
  induction m with
  | zero => simpa using h
  | succ m ih =>
    simp only [List.replicate_succ, List.cons_append, tracked]
    exact ⟨by simp, ih⟩

theorem holders_block (t : StructType τ) (i : Nat) :
    (t.Fields.map (fun f => (⟨i, f⟩ : FieldInfo τ))).map (fun fi => fi.HolderType) =
      List.replicate t.NumField i := by
  rw [List.map_map]
  apply List.ext_getElem?
  intro n
  rw [List.getElem?_map, List.getElem?_replicate]
  rw [Fields_getElem?]
  cases hd : t.decls[n]? with
  | none =>
    have hn : ¬ n < t.NumField := by
      intro hlt
      have := List.getElem?_eq_none_iff.mp hd
      unfold StructType.NumField at hlt
      omega
    simp [hn]
  | some d =>
    have hn : n < t.NumField := (List.getElem?_eq_some.mp hd).1
    simp [hn]

/-- When every shape declares a field, the loop variables follow the holders of the
flattened field list. -/
theorem tracked_fieldInfosFrom (ts : List (StructType τ)) (i : Nat) (ii : Int)
    (t : Option Nat) (hne : ∀ s ∈ ts, s.decls ≠ []) (hii : ii + 1 = (i : Int))
    (ht : t ≠ some i) :
    tracked ii t ((fieldInfosFrom i ts).map (fun fi => fi.HolderType)) := by
  induction ts generalizing i ii t with
  | nil => simp [fieldInfosFrom, tracked]
  | cons s ts ih =>
    simp only [fieldInfosFrom, List.map_append, holders_block]
    have hpos : 0 < s.NumField := by
      have := hne s (List.mem_cons_self _ _)
      unfold StructType.NumField
      exact List.length_pos.mpr this
    obtain ⟨m, hm⟩ : ∃ m, s.NumField = m + 1 := ⟨s.NumField - 1, by omega⟩
    rw [hm, List.replicate_succ, List.cons_append]
    simp only [tracked]
    refine ⟨by simp [ht, hii], ?_⟩
    apply tracked_replicate
    exact ih (i + 1) (i : Int) (some i) (fun x hx => hne x (List.mem_cons_of_mem _ hx))
      (by simp) (by simp)

/-- One row of `QueryStructs` on shapes that all declare a field and whose non-transient
fields are exported: the field-info loop succeeds on fresh instances, and each instance
holds the buffer slots of its own shape, transient fields staying at zero. -/
theorem assignRow_flattened [DecidableEq τ] (rt : Runtime τ ν δ)
    (ts : List (StructType τ)) (buffer : List ν)
    (hne : ∀ s ∈ ts, s.decls ≠ [])
    (hexp : ∀ s ∈ ts, ∀ (j : Nat) (d : FieldDecl τ), s.decls[j]? = some d →
      (d.asField j).isTransient = false → d.PkgPath = "")
    (hlen : (buildFieldInfoList ts).length = buffer.length) :
    ∃ instances,
      assignRow rt (-1) none (ts.map (newInstance rt)) (buildFieldInfoList ts) buffer =
        .ok instances ∧
      instances.map Instance.type = ts ∧
      ∀ (k j : Nat) (t : StructType τ) (inst : Instance τ ν) (d : FieldDecl τ),
        ts[k]? = some t → instances[k]? = some inst → t.decls[j]? = some d →
        ((d.asField j).isTransient = true → inst.values[j]? = some (rt.zero d.Typ)) ∧
        ((d.asField j).isTransient = false → ∀ v,
          buffer[((ts.take k).map StructType.NumField).sum + j]? = some v →
          inst.values[j]? = some v) := by
  have htypes : (ts.map (newInstance rt)).map Instance.type = ts := by
    rw [List.map_map]
    conv => rhs; rw [← List.map_id ts]
    apply List.map_congr_left
    intro t _
    exact newInstance_type rt t
  obtain ⟨insts1, hrun, hty, hkeep, hlast⟩ :=
    assignRow_ok rt (buildFieldInfoList ts) buffer (-1) none (ts.map (newInstance rt)) hlen
      (tracked_fieldInfosFrom ts 0 (-1) none hne (by simp) (by simp))
      (by
        intro fi hfi hnt
        obtain ⟨p, hp⟩ := List.mem_iff_getElem?.mp hfi
        obtain ⟨k, t, j, d, hk, hd, hfi2, _⟩ := fieldInfosFrom_some ts 0 p fi hp
        subst hfi2
        simp only [Nat.zero_add] at hnt ⊢
        refine ⟨t, d, by rw [htypes]; exact hk, hd, ?_, rfl⟩
        exact hexp t (List.mem_iff_getElem?.mpr ⟨k, hk⟩) j d hd hnt)
  refine ⟨insts1, hrun, by rw [hty, htypes], ?_⟩
  intro k j t inst d hk hinst hd
  have hcell : cellAt insts1 k j = inst.fields[j]? := by
    unfold cellAt
    rw [hinst]
  constructor
  · intro htr
    have hk2 := hkeep k j (by
      intro fi hfi hnt hloc
      obtain ⟨p, hp⟩ := List.mem_iff_getElem?.mp hfi
      obtain ⟨k2, t2, j2, d2, hk2, hd2, hfi2, _⟩ := fieldInfosFrom_some ts 0 p fi hp
      subst hfi2
      simp only [Nat.zero_add] at hnt hloc
      obtain ⟨e1, e2⟩ := hloc
      have e2b : j2 = j := e2
      subst e1
      subst e2b
      rw [hk] at hk2
      simp only [Option.some.injEq] at hk2
      subst hk2
      rw [hd] at hd2
      simp only [Option.some.injEq] at hd2
      subst hd2
      rw [htr] at hnt
      exact absurd hnt (by decide))
    rw [hcell] at hk2
    unfold Instance.values
    rw [List.getElem?_map, hk2]
    unfold cellAt
    rw [List.getElem?_map, hk]
    simp [newInstance_fields, hd]
  · intro hnt v hv
    have hat := fieldInfosFrom_at ts 0 k j t d hk hd
    obtain ⟨d2, hd2⟩ := hlast _ ⟨0 + k, d.asField j⟩ v hat hv hnt (by
      intro p2 fi2 hp2 hfi2 _ hloc
      obtain ⟨k2, t2, j2, d3, hk2, hd3, hfi3, hpos⟩ := fieldInfosFrom_some ts 0 p2 fi2 hfi2
      subst hfi3
      simp only [Nat.zero_add] at hloc
      obtain ⟨e1, e2⟩ := hloc
      have e2b : j2 = j := e2
      subst e1
      subst e2b
      omega)
    simp only [Nat.zero_add] at hd2
    have hj : (d.asField j).Index = j := rfl
    rw [hj, hcell] at hd2
    unfold Instance.values
    rw [List.getElem?_map, hd2]
    rfl

/-- A successful row loop of `QueryStructs` yields one row of instances per result row. -/
theorem mapRowsMulti_ok [DecidableEq τ] (rt : Runtime τ ν δ) (ts : List (StructType τ))
    (infos : List (FieldInfo τ)) (rows : List (List δ)) (out : List (List (Instance τ ν)))
    (h : mapRowsMulti rt ts infos rows = .ok out) :
    out.length = rows.length ∧
      ∀ (n : Nat) (row : List δ) (instances : List (Instance τ ν)),
        rows[n]? = some row → out[n]? = some instances →
        ∃ buffer, Scan rt (infos.map (fun fi => fi.StructField.Typ)) row = .ok buffer ∧
          assignRow rt (-1) none (ts.map (newInstance rt)) infos buffer = .ok instances := by
  induction rows generalizing out with
  | nil =>
    simp only [mapRowsMulti, Except.ok.injEq] at h
    subst h
    simp
  | cons row rest ih =>
    simp only [mapRowsMulti] at h
    cases hs : Scan rt (infos.map (fun fi => fi.StructField.Typ)) row with
    | error e => simp [hs] at h
    | ok buffer =>
      cases hc : assignRow rt (-1) none (ts.map (newInstance rt)) infos buffer with
      | error e => simp [hs, hc] at h
      | ok instances =>
        cases hr : mapRowsMulti rt ts infos rest with
        | error e => simp [hs, hc, hr] at h
        | ok arr =>
          simp only [hs, hc, hr, Except.ok.injEq] at h
          subst h
          obtain ⟨h1, h2⟩ := ih arr hr
          refine ⟨by simp [h1], ?_⟩
          intro n row2 instances2 hn ho
          cases n with
          | zero =>
            simp only [List.getElem?_cons_zero, Option.some.injEq] at hn ho
            subst hn
            subst ho
            exact ⟨buffer, hs, hc⟩
          | succ n =>
            simp only [List.getElem?_cons_succ] at hn ho
            exact h2 n row2 instances2 hn ho

/-- The row loop of `QueryStructs` succeeds when every row scans and assigns. -/
theorem mapRowsMulti_succeeds [DecidableEq τ] (rt : Runtime τ ν δ)
    (ts : List (StructType τ)) (infos : List (FieldInfo τ)) (rows : List (List δ))
    (h : ∀ row ∈ rows, ∃ buffer instances,
      Scan rt (infos.map (fun fi => fi.StructField.Typ)) row = .ok buffer ∧
      assignRow rt (-1) none (ts.map (newInstance rt)) infos buffer = .ok instances) :
    ∃ out, mapRowsMulti rt ts infos rows = .ok out := by
  induction rows with
  | nil => exact ⟨[], rfl⟩
  | cons row rest ih =>
    obtain ⟨arr, harr⟩ := ih (fun r hr => h r (List.mem_cons_of_mem _ hr))
    obtain ⟨buffer, instances, hs, hc⟩ := h row (List.mem_cons_self _ _)
    exact ⟨instances :: arr, by simp [mapRowsMulti, hs, hc, harr]⟩

/-- C5 (amended): for shapes that each declare at least one field and whose
non-transient fields are exported, and a result set whose column count is the total
field count and whose rows all scan into the flattened field types, `QueryStructs`
succeeds with one output row per result row, in order; each output row has one instance
per shape in shape order, and field `j` of instance `k` holds the scanned cell at the
flattened position (field counts of shapes before `k`) + `j` when it is not transient and
its zero value when it is. -/
theorem QueryStructs_rows [DecidableEq τ] (rt : Runtime τ ν δ) (r : Rows δ)
    (ts : List (StructType τ))
    (hne : ∀ s ∈ ts, s.decls ≠ [])
    (hexp : ∀ s ∈ ts, ∀ (j : Nat) (d : FieldDecl τ), s.decls[j]? = some d →
      (d.asField j).isTransient = false → d.PkgPath = "")
    (hcount : r.columns.length = (ts.map StructType.NumField).sum)
    (hscan : ∀ row ∈ r.rows, ∃ buffer,
      Scan rt ((buildFieldInfoList ts).map (fun fi => fi.StructField.Typ)) row = .ok buffer) :
    ∃ out, QueryStructs rt (.ok r) ts = .ok out ∧ out.length = r.rows.length ∧
      ∀ (n : Nat) (row : List δ) (instances : List (Instance τ ν)),
        r.rows[n]? = some row → out[n]? = some instances →
        instances.map Instance.type = ts ∧
        ∀ (k j : Nat) (t : StructType τ) (inst : Instance τ ν) (d : FieldDecl τ),
          ts[k]? = some t → instances[k]? = some inst → t.decls[j]? = some d →
          ((d.asField j).isTransient = true → inst.values[j]? = some (rt.zero d.Typ)) ∧
          ((d.asField j).isTransient = false → ∃ c v,
            row[((ts.take k).map StructType.NumField).sum + j]? = some c ∧
            rt.convertAssign d.Typ c = .ok v ∧ inst.values[j]? = some v) := by
  have hlenI : (buildFieldInfoList ts).length = (ts.map StructType.NumField).sum :=
    fieldInfosFrom_length ts 0
  have hrow : ∀ row ∈ r.rows, ∃ buffer instances,
      Scan rt ((buildFieldInfoList ts).map (fun fi => fi.StructField.Typ)) row = .ok buffer ∧
      assignRow rt (-1) none (ts.map (newInstance rt)) (buildFieldInfoList ts) buffer =
        .ok instances := by
    intro row hr
    obtain ⟨buffer, hs⟩ := hscan row hr
    obtain ⟨_, hbl, _⟩ := Scan_ok rt _ row buffer hs
    simp only [List.length_map] at hbl
    obtain ⟨instances, hrun, _⟩ := assignRow_flattened rt ts buffer hne hexp hbl.symm
    exact ⟨buffer, instances, hs, hrun⟩
  obtain ⟨out, hout⟩ := mapRowsMulti_succeeds rt ts (buildFieldInfoList ts) r.rows hrow
  have hq : QueryStructs rt (.ok r) ts = .ok out := by
    simp only [QueryStructs, hcount, hlenI, ne_eq, not_true_eq_false, ↓reduceIte]
    exact hout
  obtain ⟨hlen, hrows⟩ := mapRowsMulti_ok rt ts (buildFieldInfoList ts) r.rows out hout
  refine ⟨out, hq, hlen, ?_⟩
  intro n row instances hn ho
  obtain ⟨buffer, hs, hrun⟩ := hrows n row instances hn ho
  obtain ⟨hrl, hbl, hconv⟩ := Scan_ok rt _ row buffer hs
  simp only [List.length_map] at hrl hbl
  obtain ⟨instances2, hrun2, hty, hvals⟩ := assignRow_flattened rt ts buffer hne hexp hbl.symm
  rw [hrun] at hrun2
  simp only [Except.ok.injEq] at hrun2
  subst hrun2
  refine ⟨hty, ?_⟩
  intro k j t inst d hk hinst hd
  obtain ⟨htr, hnt⟩ := hvals k j t inst d hk hinst hd
  refine ⟨htr, ?_⟩
  intro hnot
  have hat := fieldInfosFrom_at ts 0 k j t d hk hd
  have hp : ((ts.take k).map StructType.NumField).sum + j < (buildFieldInfoList ts).length :=
    (List.getElem?_eq_some.mp hat).1
  have hc : row[((ts.take k).map StructType.NumField).sum + j]? =
      some (row[((ts.take k).map StructType.NumField).sum + j]) :=
    List.getElem?_eq_getElem (by omega)
  obtain ⟨v, hv, hcv⟩ := hconv _ d.Typ _
    (by
      rw [List.getElem?_map]
      unfold buildFieldInfoList
      rw [hat]
      rfl) hc
  exact ⟨_, v, hc, hcv, hnt hnot v hv⟩

/-- C5, witness: the join of `Order` and `Customer` over four columns and two rows. -/
theorem QueryStructs_rows_witness :
    ∃ out, QueryStructs sampleRuntime (.ok joinRows) [orderShape, customerShape] = .ok out ∧
      out.length = joinRows.rows.length ∧
      ∀ (n : Nat) (row : List Cell) (instances : List (Instance Kind Val)),
        joinRows.rows[n]? = some row → out[n]? = some instances →
        instances.map Instance.type = [orderShape, customerShape] ∧
        ∀ (k j : Nat) (t : StructType Kind) (inst : Instance Kind Val) (d : FieldDecl Kind),
          [orderShape, customerShape][k]? = some t → instances[k]? = some inst →
          t.decls[j]? = some d →
          ((d.asField j).isTransient = true →
            inst.values[j]? = some (sampleRuntime.zero d.Typ)) ∧
          ((d.asField j).isTransient = false → ∃ c v,
            row[(([orderShape, customerShape].take k).map StructType.NumField).sum + j]? =
              some c ∧
            sampleRuntime.convertAssign d.Typ c = .ok v ∧ inst.values[j]? = some v) :=
  QueryStructs_rows sampleRuntime joinRows [orderShape, customerShape]
    (by
      intro s hs
      simp only [List.mem_cons, List.mem_singleton, List.not_mem_nil, or_false] at hs
      rcases hs with rfl | rfl <;> decide)
    (by
      intro s hs j d hd _
      have hmem : d ∈ s.decls := List.mem_iff_getElem?.mpr ⟨j, hd⟩
      simp only [List.mem_cons, List.mem_singleton, List.not_mem_nil, or_false] at hs
      rcases hs with rfl | rfl
      · simp only [orderShape, List.mem_cons, List.mem_singleton, List.not_mem_nil,
          or_false] at hmem
        rcases hmem with rfl | rfl <;> rfl
      · simp only [customerShape, List.mem_cons, List.mem_singleton, List.not_mem_nil,
          or_false] at hmem
        rcases hmem with rfl | rfl <;> rfl)
    rfl
    (by
      intro row hr
      simp only [joinRows, List.mem_cons, List.mem_singleton, List.not_mem_nil,
        or_false] at hr
      rcases hr with rfl | rfl
      · exact ⟨_, rfl⟩
      · exact ⟨_, rfl⟩)

/-- C5, counterexample: four result sets whose column count equals the total field count.
With an empty shape first, the call panics, or it returns rows in which the value of the
second column sits in the transient field of another shape and the field it belongs to
is left at zero; a NULL cell for an `int` field and an unexported field make the call
panic. -/
theorem QueryStructs_column_count_not_sufficient :
    (QueryStructs sampleRuntime (.ok ⟨["y"], [[Cell.int 7]]⟩) [emptyShape, amountShape]).map
        rowValues = .error "reflect: Field index out of range" ∧
      (QueryStructs sampleRuntime (.ok ⟨["a", "y"], [[Cell.int 1, Cell.int 7]]⟩)
          [emptyShape, markerShape, amountShape]).map rowValues =
        .ok [[[], [Val.int 7], [Val.int 0]]] ∧
      (QueryStructs sampleRuntime (.ok ⟨["y"], [[Cell.null]]⟩) [amountShape]).map rowValues =
        .error "sql: Scan error: unsupported conversion" ∧
      (QueryStructs sampleRuntime (.ok ⟨["y"], [[Cell.int 7]]⟩) [hiddenShape]).map rowValues =
        .error "reflect: reflect.Value.Set using value obtained using unexported field" :=
  ⟨rfl, rfl, rfl, rfl⟩

/-! ## Properties of parameter binding -/

theorem fieldInterfaces_exported (fs : List (FieldDecl τ × ν))
    (h : ∀ c ∈ fs, c.1.PkgPath = "") : fieldInterfaces fs = .ok (fs.map Prod.snd) := by
  induction fs with
  | nil => rfl
  | cons c rest ih =>
    obtain ⟨d, v⟩ := c
    have hd : d.PkgPath = "" := h (d, v) (List.mem_cons_self _ _)
    simp [fieldInterfaces, hd, ih (fun x hx => h x (List.mem_cons_of_mem _ hx))]

/-- C9 (amended): for a record with `n` fields of which those from the offset on are
exported, and `0 <= offset <= n`, `ExecStructStmtOff` calls `stmt.Exec` once, with exactly
`n - offset` parameters, the `i`-th being the value of field `offset + i`, whatever the
tags of the fields; it panics exactly when `Exec` reports an error; and `ExecStructStmt`
is the case `offset = 0`. -/
theorem ExecStructStmtOff_binds (exec : List ν → Option String) (data : Instance τ ν)
    (offset : Int) (h0 : 0 ≤ offset) (hn : offset ≤ data.type.NumField)
    (hexp : ∀ (i : Nat) (d : FieldDecl τ) (v : ν), offset ≤ i →
      data.fields[i]? = some (d, v) → d.PkgPath = "") :
    (ExecStructStmtOff exec data offset).execCalls = [data.values.drop offset.toNat] ∧
      ((data.values.drop offset.toNat).length : Int) = data.type.NumField - offset ∧
      (∀ (i : Nat), (data.values.drop offset.toNat)[i]? = data.values[offset.toNat + i]?) ∧
      (ExecStructStmtOff exec data offset).outcome =
        (match exec (data.values.drop offset.toNat) with
          | some err => .error err
          | none => .ok ()) ∧
      ExecStructStmt exec data = ExecStructStmtOff exec data 0 := by
  have hfi : fieldInterfaces (data.fields.drop offset.toNat) =
      .ok (data.values.drop offset.toNat) := by
    rw [fieldInterfaces_exported]
    · simp [Instance.values, List.map_drop]
    · intro c hc
      obtain ⟨i, hi⟩ := List.mem_iff_getElem?.mp hc
      rw [List.getElem?_drop] at hi
      exact hexp (offset.toNat + i) c.1 c.2 (by omega) hi
  have hlen : data.values.length = data.type.NumField := by
    simp [Instance.values, Instance.type, StructType.NumField]
  have h1 : ¬ ((data.type.NumField : Int) - offset < 0) := by omega
  have h2 : ¬ (offset < 0) := by omega
  refine ⟨?_, ?_, ?_, ?_, rfl⟩
  · simp only [ExecStructStmtOff, h1, h2, ↓reduceIte, hfi]
    cases exec (data.values.drop offset.toNat) <;> rfl
  · rw [List.length_drop, hlen]
    omega
  · intro i
    exact List.getElem?_drop _ _ _
  · simp only [ExecStructStmtOff, h1, h2, ↓reduceIte, hfi]
    cases exec (data.values.drop offset.toNat) <;> rfl

/-- C9, witness: `{Id; Note transient; Name}` bound from offset 1: the transient field
and the one after it are the two parameters. -/
theorem ExecStructStmtOff_binds_witness :
    (ExecStructStmtOff (fun _ => none) noteRecord 1).execCalls =
        [[Val.str "n", Val.str "ann"]] ∧
      (ExecStructStmtOff (fun _ => none) noteRecord 1).execCalls =
        [noteRecord.values.drop (1 : Int).toNat] :=
  ⟨rfl, (ExecStructStmtOff_binds (fun _ => none) noteRecord 1 (by decide) (by decide)
    (by
      intro i d v _ hi
      have hmem : (d, v) ∈ noteRecord.fields := List.mem_iff_getElem?.mpr ⟨i, hi⟩
      simp only [noteRecord, List.mem_cons, Prod.mk.injEq, List.mem_singleton,
        List.not_mem_nil, or_false] at hmem
      rcases hmem with ⟨rfl, _⟩ | ⟨rfl, _⟩ | ⟨rfl, _⟩ <;> rfl)).1⟩

/-- C9, counterexample: for the record `{Id int; y int}` with `y` unexported and offset 0,
a valid offset, the statement is not executed and the call panics. -/
theorem ExecStructStmtOff_unexported_field :
    (0 : Int) ≤ hiddenRecord.type.NumField ∧
      (ExecStructStmtOff (fun _ => none) hiddenRecord 0).execCalls = [] ∧
      (ExecStructStmtOff (fun _ => none) hiddenRecord 0).outcome =
        .error "reflect.Value.Interface: cannot return value obtained from unexported field or method" :=
  ⟨by decide, rfl, rfl⟩

/-! ## Properties of the transactional executor -/

theorem poolSettings_lifecycle (config : DatabaseConfig) (db : Nat) :
    lifecycle (poolSettings config db) = [] := by
  obtain ⟨_, _, a, b, c⟩ := config
  cases a <;> cases b <;> cases c <;> rfl

theorem poolSettings_callbackCalls (config : DatabaseConfig) (db : Nat) :
    callbackCalls (poolSettings config db) = [] := by
  obtain ⟨_, _, a, b, c⟩ := config
  cases a <;> cases b <;> cases c <;> rfl

theorem lifecycle_append (a b : List Event) : lifecycle (a ++ b) = lifecycle a ++ lifecycle b := by
  simp [lifecycle]

theorem lifecycle_cons (e : Event) (a : List Event) :
    lifecycle (e :: a) =
      if (e.isCommit || e.isRollback || e.isClose) = true then e :: lifecycle a
      else lifecycle a := by
  simp only [lifecycle, List.filter_cons]

theorem lifecycle_nil : lifecycle [] = [] := rfl

theorem callbackCalls_append (a b : List Event) :
    callbackCalls (a ++ b) = callbackCalls a ++ callbackCalls b := by
  simp [callbackCalls]

theorem callbackCalls_cons (e : Event) (a : List Event) :
    callbackCalls (e :: a) = if e.isCallback = true then e :: callbackCalls a
      else callbackCalls a := by
  simp only [callbackCalls, List.filter_cons]

theorem callbackCalls_nil : callbackCalls [] = [] := rfl

theorem rollbackOnPanic_none (env : SqlEnv) (tx : Nat) :
    rollbackOnPanic env tx none = ([], none) := rfl

theorem rollbackOnPanic_nil (env : SqlEnv) (tx : Nat) :
    rollbackOnPanic env tx (some PanicValue.nil) = ([], none) := rfl

theorem rollbackOnPanic_value (env : SqlEnv) (tx : Nat) (text : String) :
    rollbackOnPanic env tx (some (PanicValue.value text)) =
      ([Event.logPrint text, Event.rollback tx (env.rollback tx)],
        some (PanicValue.value text)) := rfl

/-- C7 (amended): after a successful open and begin, `ExecuteTransactional` and
`ExecuteTransactionalFunc` make exactly one of commit and rollback, then close the
connection once: a unit of work that returns is followed by one commit and no rollback; a
unit of work that raises a failure `r` which `recover()` reports as non-nil is followed by
one rollback and no commit, and the call ends raising the same `r`. -/
theorem ExecuteTransactional_lifecycle (env : SqlEnv) (config : DatabaseConfig)
    (transactional : Transactional)
    (callback : Nat → Nat → List GoValue → Except PanicValue GoValue) (args : List GoValue)
    (db tx : Nat)
    (hopen : env.sqlOpen config.DatabaseDriver config.DatasourceName = .ok db)
    (hbegin : env.begin db = .ok tx) :
    (match transactional.raised db tx with
      | none =>
        lifecycle (ExecuteTransactional env config transactional).trace =
          [Event.commit tx (env.commit tx), Event.close db (env.close db)]
      | some r =>
        r ≠ PanicValue.nil →
        lifecycle (ExecuteTransactional env config transactional).trace =
          [Event.rollback tx (env.rollback tx), Event.close db (env.close db)] ∧
        (ExecuteTransactional env config transactional).outcome = .error r) ∧
    (match callback db tx [GoValue.slice args] with
      | .ok _ =>
        lifecycle (ExecuteTransactionalFunc env config callback args).trace =
          [Event.commit tx (env.commit tx), Event.close db (env.close db)]
      | .error r =>
        r ≠ PanicValue.nil →
        lifecycle (ExecuteTransactionalFunc env config callback args).trace =
          [Event.rollback tx (env.rollback tx), Event.close db (env.close db)] ∧
        (ExecuteTransactionalFunc env config callback args).outcome = .error r) := by
  constructor
  · cases h1 : transactional.SetDb db with
    | none =>
      cases h2 : transactional.SetTx tx with
      | none =>
        cases h3 : transactional.Execute db tx with
        | none =>
          simp [Transactional.raised, h1, h2, h3, ExecuteTransactional, OpenDB, hopen, hbegin,
            beginTx, Run.andThen, Run.deferred, Run.call, Run.panicking, rollbackOnPanic_none,
            closeDB, lifecycle_append, lifecycle_cons, lifecycle_nil, poolSettings_lifecycle,
            Event.isCommit, Event.isRollback, Event.isClose]
        | some r =>
          cases r with
          | nil => simp [Transactional.raised, h1, h2, h3]
          | value text =>
            simp [Transactional.raised, h1, h2, h3, ExecuteTransactional, OpenDB, hopen,
              hbegin, beginTx, Run.andThen, Run.deferred, Run.call, Run.panicking,
              rollbackOnPanic_value, closeDB, lifecycle_append, lifecycle_cons, lifecycle_nil,
              poolSettings_lifecycle, Event.isCommit, Event.isRollback, Event.isClose]
      | some r =>
        cases r with
        | nil => simp [Transactional.raised, h1, h2]
        | value text =>
          simp [Transactional.raised, h1, h2, ExecuteTransactional, OpenDB, hopen,
            hbegin, beginTx, Run.andThen, Run.deferred, Run.call, Run.panicking,
            rollbackOnPanic_value, closeDB, lifecycle_append, lifecycle_cons, lifecycle_nil,
            poolSettings_lifecycle, Event.isCommit, Event.isRollback, Event.isClose]
    | some r =>
      cases r with
      | nil => simp [Transactional.raised, h1]
      | value text =>
        simp [Transactional.raised, h1, ExecuteTransactional, OpenDB, hopen,
          hbegin, beginTx, Run.andThen, Run.deferred, Run.call, Run.panicking,
          rollbackOnPanic_value, closeDB, lifecycle_append, lifecycle_cons, lifecycle_nil,
          poolSettings_lifecycle, Event.isCommit, Event.isRollback, Event.isClose]
  · cases hc : callback db tx [GoValue.slice args] with
    | ok v =>
      simp [hc, ExecuteTransactionalFunc, callCallback, OpenDB, hopen, hbegin,
        beginTx, Run.andThen, Run.deferred, Run.call, Run.panicking, rollbackOnPanic_none,
        closeDB, lifecycle_append, lifecycle_cons, lifecycle_nil, poolSettings_lifecycle,
        Event.isCommit, Event.isRollback, Event.isClose]
    | error r =>
      cases r with
      | nil => simp
      | value text =>
        simp [hc, ExecuteTransactionalFunc, callCallback, OpenDB, hopen, hbegin,
          beginTx, Run.andThen, Run.deferred, Run.call, Run.panicking, rollbackOnPanic_value,
          closeDB, lifecycle_append, lifecycle_cons, lifecycle_nil, poolSettings_lifecycle,
          Event.isCommit, Event.isRollback, Event.isClose]

/-- C7, witness: a unit of work that returns and one that panics, with a callback that
returns and one that panics. -/
theorem ExecuteTransactional_lifecycle_witness :
    (lifecycle (ExecuteTransactional (sampleEnv none) sampleConfig quietWork).trace =
        [Event.commit 2 (some "commit failed"), Event.close 1 none] ∧
      lifecycle (ExecuteTransactionalFunc (sampleEnv none) sampleConfig countingCallback
          [GoValue.int 5]).trace =
        [Event.commit 2 (some "commit failed"), Event.close 1 none]) ∧
    ((lifecycle (ExecuteTransactional (sampleEnv none) sampleConfig failingWork).trace =
        [Event.rollback 2 none, Event.close 1 none] ∧
      (ExecuteTransactional (sampleEnv none) sampleConfig failingWork).outcome =
        .error (PanicValue.value "insert failed")) ∧
      lifecycle (ExecuteTransactionalFunc (sampleEnv none) sampleConfig failingCallback
          [GoValue.int 5]).trace =
        [Event.rollback 2 none, Event.close 1 none] ∧
      (ExecuteTransactionalFunc (sampleEnv none) sampleConfig failingCallback
          [GoValue.int 5]).outcome = .error (PanicValue.value "insert failed")) :=
  ⟨ExecuteTransactional_lifecycle (sampleEnv none) sampleConfig quietWork countingCallback
      [GoValue.int 5] 1 2 rfl rfl,
    (ExecuteTransactional_lifecycle (sampleEnv none) sampleConfig failingWork failingCallback
      [GoValue.int 5] 1 2 rfl rfl).1 (by decide),
    (ExecuteTransactional_lifecycle (sampleEnv none) sampleConfig failingWork failingCallback
      [GoValue.int 5] 1 2 rfl rfl).2 (by decide)⟩

/-- C7, counterexample: a unit of work, and a callback, that call `panic(nil)` where
`recover()` reports nil: after a successful open and begin neither commit nor rollback is
made, the connection is closed and the call returns normally. -/
theorem nil_panic_neither_commit_nor_rollback :
    nilWork.raised 1 2 = some PanicValue.nil ∧
      lifecycle (ExecuteTransactional (sampleEnv none) sampleConfig nilWork).trace =
        [Event.close 1 none] ∧
      (ExecuteTransactional (sampleEnv none) sampleConfig nilWork).outcome = .ok () ∧
      nilCallback 1 2 [GoValue.slice [GoValue.int 5]] = .error PanicValue.nil ∧
      lifecycle (ExecuteTransactionalFunc (sampleEnv none) sampleConfig nilCallback
          [GoValue.int 5]).trace = [Event.close 1 none] ∧
      (ExecuteTransactionalFunc (sampleEnv none) sampleConfig nilCallback
          [GoValue.int 5]).outcome = .ok GoValue.null :=
  ⟨rfl, rfl, rfl, rfl, rfl, rfl⟩

/-- C8, the code at the failing input: the unit of work returns, `tx.Commit()` reports
"commit failed", and both `ExecuteTransactional` and `ExecuteTransactionalFunc` return
normally, the latter with the callback's result. -/
theorem commit_failure_swallowed :
    (ExecuteTransactional (sampleEnv none) sampleConfig quietWork).trace =
        [Event.sqlOpen "postgres" "dbname=shop", Event.setMaxOpenConns 1 4, Event.begin 1,
          Event.setDb 1, Event.setTx 2, Event.execute,
          Event.commit 2 (some "commit failed"), Event.close 1 none] ∧
      (ExecuteTransactional (sampleEnv none) sampleConfig quietWork).outcome = .ok () ∧
      (ExecuteTransactionalFunc (sampleEnv none) sampleConfig countingCallback
          [GoValue.int 5]).trace =
        [Event.sqlOpen "postgres" "dbname=shop", Event.setMaxOpenConns 1 4, Event.begin 1,
          Event.callback 1 2 [GoValue.slice [GoValue.int 5]],
          Event.commit 2 (some "commit failed"), Event.close 1 none] ∧
      (ExecuteTransactionalFunc (sampleEnv none) sampleConfig countingCallback
          [GoValue.int 5]).outcome = .ok (GoValue.int 1) :=
  ⟨rfl, rfl, rfl, rfl⟩

/-- C10 (amended): when the connection opens and the transaction begins,
`ExecuteTransactionalFunc` calls the callback exactly once, with the opened connection,
the begun transaction and a variadic list of length 1 whose only element is the slice of
all the caller's arguments; when the callback returns, the value given back to the caller
is the callback's result, and when it raises a failure that `recover()` reports as
non-nil, the call raises the same failure. -/
theorem ExecuteTransactionalFunc_callback (env : SqlEnv) (config : DatabaseConfig)
    (callback : Nat → Nat → List GoValue → Except PanicValue GoValue) (args : List GoValue)
    (db tx : Nat)
    (hopen : env.sqlOpen config.DatabaseDriver config.DatasourceName = .ok db)
    (hbegin : env.begin db = .ok tx) :
    callbackCalls (ExecuteTransactionalFunc env config callback args).trace =
        [Event.callback db tx [GoValue.slice args]] ∧
      [GoValue.slice args].length = 1 ∧
      (match callback db tx [GoValue.slice args] with
        | .ok v => (ExecuteTransactionalFunc env config callback args).outcome = .ok v
        | .error r =>
          r ≠ PanicValue.nil →
          (ExecuteTransactionalFunc env config callback args).outcome = .error r) := by
  refine ⟨?_, rfl, ?_⟩
  · cases hc : callback db tx [GoValue.slice args] with
    | ok v =>
      simp [hc, ExecuteTransactionalFunc, callCallback, OpenDB, hopen, hbegin,
        beginTx, Run.andThen, Run.deferred, Run.call, Run.panicking, rollbackOnPanic_none,
        closeDB, callbackCalls_append, callbackCalls_cons, callbackCalls_nil,
        poolSettings_callbackCalls, Event.isCallback]
    | error r =>
      cases r with
      | nil =>
        simp [hc, ExecuteTransactionalFunc, callCallback, OpenDB, hopen, hbegin,
          beginTx, Run.andThen, Run.deferred, Run.call, Run.panicking, rollbackOnPanic_nil,
          closeDB, callbackCalls_append, callbackCalls_cons, callbackCalls_nil,
          poolSettings_callbackCalls, Event.isCallback]
      | value text =>
        simp [hc, ExecuteTransactionalFunc, callCallback, OpenDB, hopen, hbegin,
          beginTx, Run.andThen, Run.deferred, Run.call, Run.panicking, rollbackOnPanic_value,
          closeDB, callbackCalls_append, callbackCalls_cons, callbackCalls_nil,
          poolSettings_callbackCalls, Event.isCallback]
  · cases hc : callback db tx [GoValue.slice args] with
    | ok v =>
      simp [hc, ExecuteTransactionalFunc, callCallback, OpenDB, hopen, hbegin,
        beginTx, Run.andThen, Run.deferred, Run.call, Run.panicking, rollbackOnPanic_none,
        closeDB]
    | error r =>
      cases r with
      | nil => simp
      | value text =>
        simp [hc, ExecuteTransactionalFunc, callCallback, OpenDB, hopen, hbegin,
          beginTx, Run.andThen, Run.deferred, Run.call, Run.panicking, rollbackOnPanic_value,
          closeDB]

/-- C10, witness: two arguments reach the callback as one, so the counting callback
returns 1. -/
theorem ExecuteTransactionalFunc_callback_witness :
    callbackCalls (ExecuteTransactionalFunc (sampleEnv none) sampleConfig countingCallback
        [GoValue.int 5, GoValue.str "a"]).trace =
        [Event.callback 1 2 [GoValue.slice [GoValue.int 5, GoValue.str "a"]]] ∧
      [GoValue.slice [GoValue.int 5, GoValue.str "a"]].length = 1 ∧
      (ExecuteTransactionalFunc (sampleEnv none) sampleConfig countingCallback
        [GoValue.int 5, GoValue.str "a"]).outcome = .ok (GoValue.int 1) :=
  ExecuteTransactionalFunc_callback (sampleEnv none) sampleConfig countingCallback
    [GoValue.int 5, GoValue.str "a"] 1 2 rfl rfl

/-- C10, counterexample: when `Begin` fails the callback is not called at all and the
call panics; and when the callback calls `panic(nil)` where `recover()` reports nil, the
call returns nil normally although the callback gave no result. -/
theorem callback_not_called_when_begin_fails :
    callbackCalls (ExecuteTransactionalFunc noBeginEnv sampleConfig countingCallback
        [GoValue.int 5]).trace = [] ∧
      (ExecuteTransactionalFunc noBeginEnv sampleConfig countingCallback
        [GoValue.int 5]).outcome = .error (PanicValue.value "too many connections") ∧
      nilCallback 1 2 [GoValue.slice [GoValue.int 5]] = .error PanicValue.nil ∧
      (ExecuteTransactionalFunc (sampleEnv none) sampleConfig nilCallback
        [GoValue.int 5]).outcome = .ok GoValue.null :=
  ⟨rfl, rfl, rfl, rfl⟩

/-! ## Properties of the sequence registry -/

theorem wrapInt64_of_range (x : Int) (hlo : -(2 ^ 63) ≤ x) (hhi : x < 2 ^ 63) :
    wrapInt64 x = x := by
  unfold wrapInt64
  omega

/-- A call for a registered name does not touch the database: it increments in memory. -/
theorem Next_registered (env : SqlEnv) (o : Sequences) (name : String) (seq : Sequence)
    (h : o.Map.lookup name = some seq) :
    (o.Next env name).2 = ⟨[], .ok (wrapInt64 (seq.LastId + 1))⟩ ∧
      (o.Next env name).1.Map.lookup name =
        some { seq with LastId := wrapInt64 (seq.LastId + 1) } ∧
      (o.Next env name).1.Config = o.Config := by
  simp [Sequences.Next, h, bump]

/-- A call for one name leaves the entry of every other name as it was. -/
theorem Next_other (env : SqlEnv) (o : Sequences) (name other : String)
    (hne : other ≠ name) :
    (o.Next env other).1.Map.lookup name = o.Map.lookup name ∧
      (o.Next env other).1.Config = o.Config := by
  have hb : (name == other) = false := by
    simp only [beq_eq_false_iff_ne, ne_eq]
    exact fun e => hne e.symm
  unfold Sequences.Next
  cases h1 : o.Map.lookup other with
  | some seq => simp [bump, List.lookup_cons, hb]
  | none =>
    cases h2 : (o.initSequence env ⟨other, 0⟩).outcome with
    | error p => simp
    | ok seq => simp [bump, List.lookup_cons, hb]

/-- The first call for a name, on a database that answers: the seed is read and the call
returns the seed plus one, in `int64` arithmetic. -/
theorem Next_first (env : SqlEnv) (o : Sequences) (name : String) (db tx : Nat)
    (r : Option Int) (hnone : o.Map.lookup name = none)
    (hopen : env.sqlOpen o.Config.DatabaseDriver o.Config.DatasourceName = .ok db)
    (hbegin : env.begin db = .ok tx)
    (hquery : env.queryMaxId tx ("select max(id) from " ++ name) = .ok r) :
    (o.Next env name).2.outcome = .ok (wrapInt64 (r.getD 0 + 1)) ∧
      ((o.Next env name).1.Map.lookup name).map (fun seq => seq.LastId) =
        some (wrapInt64 (r.getD 0 + 1)) ∧
      (o.Next env name).1.Config = o.Config := by
  cases r <;>
    simp [Sequences.Next, hnone, Sequences.initSequence, OpenDB, hopen, Run.andThen,
      Run.deferred, initSequenceBody, beginTx, hbegin, hquery, closeDB, Run.panicking, bump]

/-- Once a name is registered with value `v`, its later calls return `v + 1`, `v + 2`, ...
without touching the database, whatever the database holds and whatever calls are made
for other names, as long as the values stay in the range of `int64`. -/
theorem runNexts_registered (name : String) (post : List (String × SqlEnv)) (o : Sequences)
    (v : Int) (hv : (o.Map.lookup name).map (fun seq => seq.LastId) = some v)
    (hlo : -(2 ^ 63) ≤ v)
    (hhi : v + (post.countP (fun c => c.1 == name) : Int) < 2 ^ 63) :
    outcomesFor name (runNexts o post) =
        (List.range (post.countP (fun c => c.1 == name))).map
          (fun k => .ok (v + ((k : Int) + 1))) ∧
      tracesFor name (runNexts o post) =
        List.replicate (post.countP (fun c => c.1 == name)) [] := by
  induction post generalizing o v with
  | nil => simp [runNexts, outcomesFor, tracesFor]
  | cons c rest ih =>
    obtain ⟨n, env⟩ := c
    by_cases hn : n = name
    · subst hn
      cases hl : o.Map.lookup n with
      | none => simp [hl] at hv
      | some seq =>
        simp only [hl, Option.map_some', Option.some.injEq] at hv
        obtain ⟨h1, h2, _⟩ := Next_registered env o n seq hl
        simp only [List.countP_cons, beq_self_eq_true, ↓reduceIte, Nat.cast_add,
          Nat.cast_one] at hhi ⊢
        have hw : wrapInt64 (seq.LastId + 1) = v + 1 := by
          rw [hv]
          apply wrapInt64_of_range <;> omega
        obtain ⟨ih1, ih2⟩ := ih (o.Next env n).1 (v + 1) (by rw [h2]; simp [hw])
          (by omega) (by omega)
        constructor
        · simp only [runNexts, outcomesFor, List.filter_cons, beq_self_eq_true, ↓reduceIte,
            List.map_cons, h1, hw]
          rw [List.range_succ_eq_map, List.map_cons, List.map_map]
          congr 1
          have := ih1
          simp only [outcomesFor] at this
          rw [this]
          apply List.map_congr_left
          intro k _
          simp only [Function.comp_apply, Nat.cast_succ]
          congr 1
          omega
        · simp only [runNexts, tracesFor, List.filter_cons, beq_self_eq_true, ↓reduceIte,
            List.map_cons, h1, List.replicate_succ]
          congr 1
    · have hb : (n == name) = false := by simpa using hn
      obtain ⟨h1, _⟩ := Next_other env o name n hn
      simp only [List.countP_cons, hb, Bool.false_eq_true, ↓reduceIte, Nat.add_zero] at hhi ⊢
      obtain ⟨ih1, ih2⟩ := ih (o.Next env n).1 v (by rw [h1]; exact hv) hlo hhi
      constructor
      · simpa [runNexts, outcomesFor, hb] using ih1
      · simpa [runNexts, tracesFor, hb] using ih2

/-- C6 (amended): in a registry made by `NewSequences`, if the first `Next(name)` call
reads the seed `s` (the `max(id)` the database reports, `0` when it reports none), then,
as long as `s + n` stays within `int64`, the `k`-th of the `n` calls for that name returns
`s + k`, whatever the database holds or answers at the later calls and whatever calls for
other names come in between; the calls after the first make no database call at all. -/
theorem Next_values (config : DatabaseConfig) (name : String)
    (pre post : List (String × SqlEnv)) (env0 : SqlEnv) (db tx : Nat) (r : Option Int)
    (hpre : ∀ c ∈ pre, c.1 ≠ name)
    (hopen : env0.sqlOpen config.DatabaseDriver config.DatasourceName = .ok db)
    (hbegin : env0.begin db = .ok tx)
    (hquery : env0.queryMaxId tx ("select max(id) from " ++ name) = .ok r)
    (hlo : -(2 ^ 63) ≤ r.getD 0)
    (hhi : r.getD 0 + (1 + (post.countP (fun c => c.1 == name) : Int)) < 2 ^ 63) :
    outcomesFor name (runNexts (NewSequences config) (pre ++ (name, env0) :: post)) =
        (List.range (1 + post.countP (fun c => c.1 == name))).map
          (fun k => .ok (r.getD 0 + ((k : Int) + 1))) ∧
      (tracesFor name (runNexts (NewSequences config) (pre ++ (name, env0) :: post))).drop 1 =
        List.replicate (post.countP (fun c => c.1 == name)) [] := by
  have key : ∀ (pre : List (String × SqlEnv)) (o : Sequences),
      (∀ c ∈ pre, c.1 ≠ name) → o.Map.lookup name = none → o.Config = config →
      outcomesFor name (runNexts o (pre ++ (name, env0) :: post)) =
          (List.range (1 + post.countP (fun c => c.1 == name))).map
            (fun k => .ok (r.getD 0 + ((k : Int) + 1))) ∧
        (tracesFor name (runNexts o (pre ++ (name, env0) :: post))).drop 1 =
          List.replicate (post.countP (fun c => c.1 == name)) [] := by
    intro pre
    induction pre with
    | nil =>
      intro o _ hnone hcfg
      obtain ⟨h1, h2, _⟩ := Next_first env0 o name db tx r hnone
        (by rw [hcfg]; exact hopen) hbegin hquery
      have hw : wrapInt64 (r.getD 0 + 1) = r.getD 0 + 1 := by
        apply wrapInt64_of_range <;> omega
      rw [hw] at h1 h2
      obtain ⟨r1, r2⟩ := runNexts_registered name post (o.Next env0 name).1 (r.getD 0 + 1) h2
        (by omega) (by omega)
      constructor
      · simp only [List.nil_append, runNexts, outcomesFor, List.filter_cons, beq_self_eq_true,
          ↓reduceIte, List.map_cons, h1]
        rw [Nat.add_comm 1, List.range_succ_eq_map, List.map_cons, List.map_map]
        congr 1
        have := r1
        simp only [outcomesFor] at this
        rw [this]
        apply List.map_congr_left
        intro k _
        simp only [Function.comp_apply, Nat.cast_succ]
        congr 1
        omega
      · simp only [List.nil_append, runNexts, tracesFor, List.filter_cons, beq_self_eq_true,
          ↓reduceIte, List.map_cons, List.drop_succ_cons, List.drop_zero]
        exact r2
    | cons c rest ih =>
      intro o hp hnone hcfg
      obtain ⟨n, env⟩ := c
      have hn : n ≠ name := hp (n, env) (List.mem_cons_self _ _)
      have hb : (n == name) = false := by simpa using hn
      obtain ⟨k1, k2⟩ := Next_other env o name n hn
      obtain ⟨i1, i2⟩ := ih (o.Next env n).1 (fun x hx => hp x (List.mem_cons_of_mem _ hx))
        (by rw [k1]; exact hnone) (by rw [k2]; exact hcfg)
      constructor
      · simpa [runNexts, outcomesFor, hb] using i1
      · simpa [runNexts, tracesFor, hb] using i2
  exact key pre (NewSequences config) hpre rfl rfl

/-- C6, witness: on an empty table the first call for `invoice` returns 1 and the second
returns 2, the second one while the database is unreachable and after calls for another
name. -/
theorem Next_values_witness :
    outcomesFor "invoice" (runNexts (NewSequences sampleConfig)
        ([("order", sampleEnv (some 7))] ++ ("invoice", sampleEnv none) ::
          [("order", downEnv), ("invoice", downEnv)])) = [.ok 1, .ok 2] ∧
      outcomesFor "invoice" (runNexts (NewSequences sampleConfig)
        ([("order", sampleEnv (some 7))] ++ ("invoice", sampleEnv none) ::
          [("order", downEnv), ("invoice", downEnv)])) =
        (List.range (1 + List.countP (fun c => c.1 == "invoice")
            [("order", downEnv), ("invoice", downEnv)])).map
          (fun k => .ok ((none : Option Int).getD 0 + ((k : Int) + 1))) :=
  ⟨rfl, (Next_values sampleConfig "invoice" [("order", sampleEnv (some 7))]
    [("order", downEnv), ("invoice", downEnv)] (sampleEnv none) 1 2 none
    (by
      intro c hc
      simp only [List.mem_singleton] at hc
      subst hc
      decide)
    rfl rfl rfl (by decide) (by decide)).1⟩

/-- C6, counterexample: when the seed read by the first call is the largest `int64`, the
first call returns the smallest `int64`, not the seed plus one, and the values returned
are below the seed. -/
theorem Next_wraps_at_max_int64 :
    (sampleEnv (some 9223372036854775807)).queryMaxId 2 ("select max(id) from " ++ "invoice") =
        .ok (some 9223372036854775807) ∧
      outcomesFor "invoice" (runNexts (NewSequences sampleConfig)
        [("invoice", sampleEnv (some 9223372036854775807)),
          ("invoice", sampleEnv (some 9223372036854775807))]) =
        [.ok (-9223372036854775808), .ok (-9223372036854775807)] :=
  ⟨rfl, rfl⟩

end Tkt
